import Mathlib

/-!
Verification of the openclaw ACP protocol-to-delivery subsystem.

This file shallowly embeds three components of the repository:

* the `PromptStreamProjector` (`ingestLine`) and its session-update parser from
  `src/unnamed/part_001` (the ungated projector variant);
* the reply projection pipeline of
  `src/extensions/acpx/src/runtime-internals/process.ts`
  (`createAcpReplyProjector`: visibility, per-turn character budget,
  truncation notice, tool/status dedup, meta quota, turn reset);
* the bounded resource guards of `src/src/plugin-sdk/webhook-memory-guards.ts`
  (`createFixedWindowRateLimiter.isRateLimited`, `createBoundedCounter.increment`).

Modelling conventions: JavaScript strings are Lean `String`s with explicit
character-list helpers (`jsLength`, `jsTake`, `jsTrim`, `jsToLower`) mirroring
`length`/`slice`/`trim`/`toLowerCase`; `length` counts characters rather than
UTF-16 code units. JavaScript `Map`/`Set` become association lists / lists in
insertion order. JSON numbers are modelled as integers (all claim-relevant
numbers are integral ids, codes and counts). Time stamps are `Int`.
`JSON.parse` is modelled by a total fuelled recursive-descent parser
(`parseJson`); a thrown exception becomes `none`, so the try/catch fallback of
`ingestLine` becomes the `none` branch. Asynchronous suspension (chunk
coalescing timers) is outside the embedding: a non-forced chunker drain keeps
text buffered, a forced drain dispatches the whole buffer.
-/

/-! ### JavaScript string primitives -/

/-- Character count of a string (JS `String.prototype.length`, with characters
in place of UTF-16 code units). -/
def jsLength (s : String) : Nat := s.data.length

/-- JS `String.prototype.slice(0, n)`. -/
def jsTake (s : String) (n : Nat) : String := ⟨s.data.take n⟩

/-- Whitespace recognised by the model of JS `trim` (space, tab, LF, CR). -/
def isJsSpace (c : Char) : Bool := c = ' ' ∨ c = '\t' ∨ c = '\n' ∨ c = '\r'

/-- JS `String.prototype.trim()`. -/
def jsTrim (s : String) : String :=
  ⟨((s.data.dropWhile isJsSpace).reverse.dropWhile isJsSpace).reverse⟩

/-- JS `String.prototype.toLowerCase()` (ASCII case folding). -/
def jsToLower (s : String) : String := ⟨s.data.map Char.toLower⟩







/-! ### Association lists modelling JS `Map` (insertion order, unique keys) -/

/-- `Map.get`. -/
def alistGet {α : Type} : List (String × α) → String → Option α
  | [], _ => none
  | (k', v') :: rest, k => if k' = k then some v' else alistGet rest k

/-- `Map.delete` (the guards only ever hold one entry per key, so removing
every entry with the key is the same operation). -/
def alistErase {α : Type} : List (String × α) → String → List (String × α)
  | [], _ => []
  | (k', v') :: rest, k =>
    if k' = k then alistErase rest k else (k', v') :: alistErase rest k

/-- `Map.set`: replace in place, or append as the newest entry. -/
def alistSet {α : Type} : List (String × α) → String → α → List (String × α)
  | [], k, v => [(k, v)]
  | (k', v') :: rest, k, v =>
    if k' = k then (k, v) :: rest else (k', v') :: alistSet rest k v

/-- The delete-then-set recency trick of the guards (`touch`): the entry is
moved to the most-recently-touched end. -/
def alistTouch {α : Type} (m : List (String × α)) (k : String) (v : α) : List (String × α) :=
  alistErase m k ++ [(k, v)]



/-! ### JSON values and a model of `JSON.parse` -/

/-- Decoded JSON value (numbers restricted to integers; every claim-relevant
number — ids, error codes, counts — is integral). -/
inductive JsValue where
  | null
  | bool (b : Bool)
  | num (n : Int)
  | str (s : String)
  | arr (elems : List JsValue)
  | obj (fields : List (String × JsValue))

/-- `Object.hasOwn` for a decoded JSON object (parsed JSON never maps a
present key to `undefined`). -/
def hasOwn (m : List (String × JsValue)) (k : String) : Bool := (alistGet m k).isSome

def digitsToNat (ds : List Char) : Nat :=
  ds.foldl (fun a c => a * 10 + (c.toNat - 48)) 0

def hexVal (c : Char) : Option Nat :=
  if c.isDigit then some (c.toNat - 48)
  else if 'a' ≤ c ∧ c ≤ 'f' then some (c.toNat - 87)
  else if 'A' ≤ c ∧ c ≤ 'F' then some (c.toNat - 55)
  else none

mutual

/-- Fuelled recursive-descent JSON parser (model of `JSON.parse`; an
exception becomes `none`). -/
def parseJsonValue : Nat → List Char → Option (JsValue × List Char)
  | 0, _ => none
  | Nat.succ fuel, cs =>
    match cs.dropWhile isJsSpace with
    | [] => none
    | 'n' :: 'u' :: 'l' :: 'l' :: rest => some (.null, rest)
    | 't' :: 'r' :: 'u' :: 'e' :: rest => some (.bool true, rest)
    | 'f' :: 'a' :: 'l' :: 's' :: 'e' :: rest => some (.bool false, rest)
    | '"' :: rest => (parseJsonString fuel rest []).map (fun p => (.str p.1, p.2))
    | '[' :: rest =>
      (match rest.dropWhile isJsSpace with
       | ']' :: rest2 => some (.arr [], rest2)
       | cs2 => parseJsonArrayItems fuel cs2 [])
    | '{' :: rest =>
      (match rest.dropWhile isJsSpace with
       | '}' :: rest2 => some (.obj [], rest2)
       | cs2 => parseJsonObjectItems fuel cs2 [])
    | c :: rest =>
      if c = '-' then
        (match rest.span Char.isDigit with
         | ([], _) => none
         | (ds, rest2) => some (.num (-(digitsToNat ds : Int)), rest2))
      else if c.isDigit then
        (match (c :: rest).span Char.isDigit with
         | (ds, rest2) => some (.num (digitsToNat ds : Int), rest2))
      else none

def parseJsonString : Nat → List Char → List Char → Option (String × List Char)
  | 0, _, _ => none
  | Nat.succ fuel, cs, acc =>
    match cs with
    | [] => none
    | '"' :: rest => some (⟨acc.reverse⟩, rest)
    | '\\' :: e :: rest =>
      if e = '"' ∨ e = '\\' ∨ e = '/' then parseJsonString fuel rest (e :: acc)
      else if e = 'n' then parseJsonString fuel rest ('\n' :: acc)
      else if e = 't' then parseJsonString fuel rest ('\t' :: acc)
      else if e = 'r' then parseJsonString fuel rest ('\r' :: acc)
      else if e = 'b' then parseJsonString fuel rest (Char.ofNat 8 :: acc)
      else if e = 'f' then parseJsonString fuel rest (Char.ofNat 12 :: acc)
      else if e = 'u' then
        match rest with
        | h1 :: h2 :: h3 :: h4 :: rest2 =>
          match hexVal h1, hexVal h2, hexVal h3, hexVal h4 with
          | some a, some b, some c, some d =>
            parseJsonString fuel rest2 (Char.ofNat (((a * 16 + b) * 16 + c) * 16 + d) :: acc)
          | _, _, _, _ => none
        | _ => none
      else none
    | c :: rest => parseJsonString fuel rest (c :: acc)

def parseJsonArrayItems : Nat → List Char → List JsValue → Option (JsValue × List Char)
  | 0, _, _ => none
  | Nat.succ fuel, cs, acc =>
    match parseJsonValue fuel cs with
    | none => none
    | some (v, rest) =>
      match rest.dropWhile isJsSpace with
      | ']' :: rest2 => some (.arr (acc ++ [v]), rest2)
      | ',' :: rest2 => parseJsonArrayItems fuel rest2 (acc ++ [v])
      | _ => none

def parseJsonObjectItems : Nat → List Char → List (String × JsValue) →
    Option (JsValue × List Char)
  | 0, _, _ => none
  | Nat.succ fuel, cs, acc =>
    match cs.dropWhile isJsSpace with
    | '"' :: rest =>
      (match parseJsonString fuel rest [] with
       | none => none
       | some (key, rest2) =>
         match rest2.dropWhile isJsSpace with
         | ':' :: rest3 =>
           (match parseJsonValue fuel rest3 with
            | none => none
            | some (v, rest4) =>
              match rest4.dropWhile isJsSpace with
              | '}' :: rest5 => some (.obj (acc ++ [(key, v)]), rest5)
              | ',' :: rest5 => parseJsonObjectItems fuel rest5 (acc ++ [(key, v)])
              | _ => none)
         | _ => none)
    | _ => none

end

/-- Model of `JSON.parse` on one line: the whole input must be consumed up to
trailing whitespace. -/
def parseJson (s : String) : Option JsValue :=
  match parseJsonValue (4 * jsLength s + 16) s.data with
  | some (v, rest) => if rest.dropWhile isJsSpace = [] then some v else none
  | none => none

/-! ### Shared value helpers

The projector imports `isRecord`, `asString`, `asTrimmedString`,
`asOptionalString` from `runtime-internals/shared.ts` and
`isAcpJsonRpcMessage`, `normalizeJsonRpcId` from `runtime-internals/jsonrpc.ts`;
those two files are not in the source tree, so they are modelled from the spec.
-/

/-- Modelled from the spec: `isRecord` (shared.ts is missing) — a decoded value
qualifies as a mapping only when it is an object. -/
def isRecord : JsValue → Bool
  | .obj _ => true
  | _ => false

/-- Modelled from the spec: `asString` (shared.ts is missing) — the value when
it is a string, otherwise absent. Callers treat the empty string as falsy. -/
def asString : Option JsValue → Option String
  | some (.str s) => some s
  | _ => none

/-- Modelled from the spec: `asTrimmedString` (shared.ts is missing) — the
trimmed string value, or the empty string for a missing/non-string value
(both compare unequal to every non-empty literal and are falsy). -/
def asTrimmedString (v : Option JsValue) : String :=
  match asString v with
  | some s => jsTrim s
  | none => ""

/-- Modelled from the spec: `asOptionalString` (shared.ts is missing) — the
string value when present, otherwise absent. -/
def asOptionalString : Option JsValue → Option String
  | some (.str s) => some s
  | _ => none

/-- Modelled from the spec: `normalizeJsonRpcId` (jsonrpc.ts is missing) — an
id is normalized to a comparison key: numbers stringify, strings pass through,
missing/null ids normalize to no identifier. The empty string is falsy at every
call site, so it is folded into "no identifier". -/
def normalizeJsonRpcId : Option JsValue → Option String
  | some (.num n) => some (toString n)
  | some (.str s) => if s = "" then none else some s
  | _ => none

/-- Modelled from the spec: `isAcpJsonRpcMessage` (jsonrpc.ts is missing) — a
decoded value qualifies as a protocol message only if it is a mapping and
either carries `method`, or carries exactly one of `result`/`error` together
with an `id`. -/
def isAcpJsonRpcMessage : JsValue → Bool
  | .obj m => hasOwn m "method" || (hasOwn m "id" && (hasOwn m "result" != hasOwn m "error"))
  | _ => false

/-! ### Runtime events

`AcpRuntimeEvent` from the plugin SDK, the closed union consumed by the reply
pipeline. The optional `tag`/`toolCallId`/`status`/`title`/`used`/`size`
fields are read by the pipeline; the part_001 projector variant embedded below
never populates them.
-/

inductive AcpStream where
  | output
  | thought
deriving DecidableEq, Repr

inductive AcpRuntimeEvent where
  | text_delta (text : String) (stream : Option AcpStream) (tag : Option String)
  | tool_call (text : String) (tag : Option String) (toolCallId : Option String)
      (status : Option String) (title : Option String)
  | status (text : String) (tag : Option String) (used : Option Int) (size : Option Int)
  | done (stopReason : String)
  | error (message : String) (code : Option String)
deriving DecidableEq, Repr

/-! ### Prompt stream projector (src/unnamed/part_001) -/

/-- `parsePromptStopReason` (src/unnamed/part_001 lines 30-40). -/
def parsePromptStopReason (m : List (String × JsValue)) : Option String :=
  if hasOwn m "result" then
    match alistGet m "result" with
    | some (.obj r) =>
      (match asString (alistGet r "stopReason") with
       | some s => if s ≠ "" ∧ 0 < jsLength (jsTrim s) then some s else none
       | none => none)
    | _ => none
  else none

/-- The `configOptions` entry count of a `config_option_update` session
update (`Array.isArray(update.configOptions) ? ... .length : 0`). -/
def configOptionsCount (update : List (String × JsValue)) : Nat :=
  match alistGet update "configOptions" with
  | some (.arr xs) => xs.length
  | _ => 0

/-- The update-kind switch of `parseSessionUpdateEvent`
(src/unnamed/part_001 lines 55-158). -/
def parseSessionUpdateKind (update : List (String × JsValue)) : Option AcpRuntimeEvent :=
  match asTrimmedString (alistGet update "sessionUpdate") with
  | "agent_message_chunk" =>
    (match alistGet update "content" with
     | some (.obj content) =>
       if asTrimmedString (alistGet content "type") ≠ "text" then none
       else
         (match asString (alistGet content "text") with
          | some t => if t = "" then none else some (.text_delta t (some .output) none)
          | none => none)
     | _ => none)
  | "agent_thought_chunk" =>
    (match alistGet update "content" with
     | some (.obj content) =>
       if asTrimmedString (alistGet content "type") ≠ "text" then none
       else
         (match asString (alistGet content "text") with
          | some t => if t = "" then none else some (.text_delta t (some .thought) none)
          | none => none)
     | _ => none)
  | "tool_call" =>
    some (.tool_call (toolCallEventText update) none none none none)
  | "tool_call_update" =>
    some (.tool_call (toolCallEventText update) none none none none)
  | "plan" =>
    (match planEntriesFirstRecord update with
     | some f =>
       let content := asTrimmedString (alistGet f "content")
       if content = "" then some (.status "plan updated" none none none)
       else
         let status := asTrimmedString (alistGet f "status")
         some (.status (if status ≠ "" then s!"plan: [{status}] {content}"
           else s!"plan: {content}") none none none)
     | none => some (.status "plan updated" none none none))
  | "available_commands_update" =>
    let commands : Nat :=
      match alistGet update "availableCommands" with
      | some (.arr xs) => xs.length
      | _ => 0
    some (.status s!"available commands updated ({commands})" none none none)
  | "current_mode_update" =>
    let modeId := asTrimmedString (alistGet update "currentModeId")
    some (.status (if modeId ≠ "" then s!"mode updated: {modeId}" else "mode updated")
      none none none)
  | "config_option_update" =>
    let options : Nat := configOptionsCount update
    some (.status s!"config options updated ({options})" none none none)
  | "session_info_update" =>
    let title := asTrimmedString (alistGet update "title")
    some (.status (if title ≠ "" then s!"session info updated: {title}"
      else "session info updated") none none none)
  | "usage_update" =>
    let used : Option Int :=
      match alistGet update "used" with
      | some (.num n) => some n
      | _ => none
    let size : Option Int :=
      match alistGet update "size" with
      | some (.num n) => some n
      | _ => none
    (match used, size with
     | some u, some sz => some (.status s!"usage updated: {u}/{sz}" none none none)
     | _, _ => some (.status "usage updated" none none none))
  | _ => none
where
  /-- The `tool_call`/`tool_call_update` text: title falls back through
  `toolCallId` and `kind` to `"tool"`, with the status appended. -/
  toolCallEventText (update : List (String × JsValue)) : String :=
    let t1 := asTrimmedString (alistGet update "title")
    let t2 := asTrimmedString (alistGet update "toolCallId")
    let t3 := asTrimmedString (alistGet update "kind")
    let title := if t1 ≠ "" then t1 else if t2 ≠ "" then t2 else if t3 ≠ "" then t3 else "tool"
    let status := asTrimmedString (alistGet update "status")
    if status ≠ "" then s!"{title} ({status})" else title
  /-- First record among `update.entries`. -/
  planEntriesFirstRecord (update : List (String × JsValue)) :
      Option (List (String × JsValue)) :=
    let entries := match alistGet update "entries" with
      | some (.arr es) => es
      | _ => []
    match entries.find? isRecord with
    | some (.obj f) => some f
    | _ => none

/-- `parseSessionUpdateEvent` (src/unnamed/part_001 lines 42-159). -/
def parseSessionUpdateEvent (m : List (String × JsValue)) : Option AcpRuntimeEvent :=
  if asTrimmedString (alistGet m "method") ≠ "session/update" then none
  else
    match alistGet m "params" with
    | some (.obj params) =>
      (match alistGet params "update" with
       | some (.obj update) => parseSessionUpdateKind update
       | _ => none)
    | _ => none

/-- The error event built by the `error` branch of `ingestLine`
(src/unnamed/part_001 lines 200-210). -/
def mkPromptErrorEvent (m : List (String × JsValue)) : AcpRuntimeEvent :=
  let error : Option (List (String × JsValue)) :=
    match alistGet m "error" with
    | some (.obj e) => some e
    | _ => none
  let message :=
    match error with
    | some e => asTrimmedString (alistGet e "message")
    | none => ""
  let codeValue : Option JsValue :=
    match error with
    | some e => alistGet e "code"
    | none => none
  .error (if message ≠ "" then message else "acpx runtime error")
    (match codeValue with
     | some (.num n) => some (toString n)
     | _ => asOptionalString codeValue)

/-- `PromptStreamProjector.shouldHandlePromptResponse`
(src/unnamed/part_001 lines 224-230): membership only, no removal. -/
def shouldHandlePromptResponse (ids : List String) (m : List (String × JsValue)) : Bool :=
  match normalizeJsonRpcId (alistGet m "id") with
  | none => false
  | some id => ids.contains id

/-- The body of `PromptStreamProjector.ingestLine` after `JSON.parse`
succeeded (src/unnamed/part_001 lines 179-221); the projector state is the
`promptRequestIds` set in insertion order. -/
def ingestParsed (ids : List String) (v : JsValue) : List String × Option AcpRuntimeEvent :=
  match v with
  | .obj m =>
    if !isAcpJsonRpcMessage (.obj m) then (ids, none)
    else
      match parseSessionUpdateEvent m with
      | some ev => (ids, some ev)
      | none =>
        if asTrimmedString (alistGet m "method") = "session/prompt" then
          (match normalizeJsonRpcId (alistGet m "id") with
           | some id => (ids.insert id, none)
           | none => (ids, none))
        else if hasOwn m "error" then
          (if shouldHandlePromptResponse ids m then (ids, some (mkPromptErrorEvent m))
           else (ids, none))
        else
          match parsePromptStopReason m with
          | some stopReason =>
            (if shouldHandlePromptResponse ids m then (ids, some (.done stopReason))
             else (ids, none))
          | none => (ids, none)
  | _ => (ids, none)

/-- `PromptStreamProjector.ingestLine` (src/unnamed/part_001 lines 164-222).
Total: the `JSON.parse` try/catch becomes the `none` branch, so no input
throws. -/
def ingestLine (ids : List String) (line : String) : List String × Option AcpRuntimeEvent :=
  let trimmed := jsTrim line
  if trimmed = "" then (ids, none)
  else
    match parseJson trimmed with
    | none => (ids, some (.status trimmed none none none))
    | some v => ingestParsed ids v

set_option maxRecDepth 16384

/-! ### Bounded resource guards (src/src/plugin-sdk/webhook-memory-guards.ts) -/

/-- Modelled from the spec: `pruneMapToMaxSize` from `src/infra/map-size.ts`
(not in the source tree) — evicts the least-recently-touched entries (the
oldest, at the front of the insertion-ordered map) until the size is at most
the configured maximum. -/
def pruneMapToMaxSize {α : Type} (m : List (String × α)) (maxSize : Int) :
    List (String × α) :=
  m.drop (m.length - maxSize.toNat)


/-- Per-key state of the fixed-window limiter (`FixedWindowState`). -/
structure FixedWindowState where
  count : Int
  windowStartMs : Int
deriving DecidableEq, Repr

/-- Options of `createFixedWindowRateLimiter` (clamping `Math.max(1, ⌊·⌋)` is
applied inside the operation; `Math.floor` is the identity on the integer
model). -/
structure RateLimiterOptions where
  windowMs : Int
  maxRequests : Int
  maxTrackedKeys : Int
  pruneIntervalMs : Option Int
deriving DecidableEq, Repr

/-- Captured mutable state of a `createFixedWindowRateLimiter` instance. -/
structure LimiterState where
  entries : List (String × FixedWindowState)
  lastPruneMs : Int
deriving DecidableEq, Repr

def initLimiterState : LimiterState := ⟨[], 0⟩

/-- The amortized sweep `prune` of the limiter: drop entries whose window has
aged out. -/
def limiterSweep (entries : List (String × FixedWindowState)) (nowMs windowMs : Int) :
    List (String × FixedWindowState) :=
  entries.filter (fun p => decide (nowMs - p.2.windowStartMs < windowMs))

/-- `createFixedWindowRateLimiter(options).isRateLimited(key, nowMs)`
(webhook-memory-guards.ts lines 52-72), with the closed-over mutable state
passed explicitly. -/
def isRateLimited (o : RateLimiterOptions) (st : LimiterState) (key : String)
    (nowMs : Int) : LimiterState × Bool :=
  if key = "" then (st, false)
  else
    let windowMs := max 1 o.windowMs
    let maxRequests := max 1 o.maxRequests
    let maxTrackedKeys := max 1 o.maxTrackedKeys
    let pruneIntervalMs := max 1 (o.pruneIntervalMs.getD windowMs)
    let st1 :=
      if nowMs - st.lastPruneMs ≥ pruneIntervalMs then
        { entries := limiterSweep st.entries nowMs windowMs, lastPruneMs := nowMs }
      else st
    match alistGet st1.entries key with
    | none =>
      ({ st1 with
          entries := pruneMapToMaxSize (alistTouch st1.entries key ⟨1, nowMs⟩) maxTrackedKeys },
        false)
    | some existing =>
      if nowMs - existing.windowStartMs ≥ windowMs then
        ({ st1 with
            entries :=
              pruneMapToMaxSize (alistTouch st1.entries key ⟨1, nowMs⟩) maxTrackedKeys },
          false)
      else
        let nextCount := existing.count + 1
        ({ st1 with
            entries :=
              pruneMapToMaxSize
                (alistTouch st1.entries key ⟨nextCount, existing.windowStartMs⟩)
                maxTrackedKeys },
          decide (nextCount > maxRequests))

/-- Fold a sequence of `isRateLimited` calls, collecting the returned flags. -/
def runLimiter (o : RateLimiterOptions) (st : LimiterState) :
    List (String × Int) → LimiterState × List Bool
  | [] => (st, [])
  | (k, t) :: rest =>
    let (st1, b) := isRateLimited o st k t
    let (st2, bs) := runLimiter o st1 rest
    (st2, b :: bs)

/-- Per-key state of the bounded counter (`CounterState`). -/
structure CounterRecord where
  count : Int
  updatedAtMs : Int
deriving DecidableEq, Repr

/-- Options of `createBoundedCounter`. -/
structure CounterOptions where
  maxTrackedKeys : Int
  ttlMs : Option Int
  pruneIntervalMs : Option Int
deriving DecidableEq, Repr

/-- Captured mutable state of a `createBoundedCounter` instance. -/
structure CounterState where
  counters : List (String × CounterRecord)
  lastPruneMs : Int
deriving DecidableEq, Repr

def initCounterState : CounterState := ⟨[], 0⟩

/-- `isExpired` of the bounded counter. -/
def counterIsExpired (ttlMs : Int) (entry : CounterRecord) (nowMs : Int) : Bool :=
  decide (ttlMs > 0) && decide (nowMs - entry.updatedAtMs ≥ ttlMs)

/-- `createBoundedCounter(options).increment(key, nowMs)`
(webhook-memory-guards.ts lines 114-129). -/
def increment (o : CounterOptions) (st : CounterState) (key : String) (nowMs : Int) :
    CounterState × Int :=
  if key = "" then (st, 0)
  else
    let maxTrackedKeys := max 1 o.maxTrackedKeys
    let ttlMs := max 0 (o.ttlMs.getD 0)
    let pruneIntervalMs := max 1 (o.pruneIntervalMs.getD (if ttlMs > 0 then ttlMs else 60000))
    let st1 :=
      if nowMs - st.lastPruneMs ≥ pruneIntervalMs then
        { counters :=
            if ttlMs > 0 then
              st.counters.filter (fun p => !counterIsExpired ttlMs p.2 nowMs)
            else st.counters,
          lastPruneMs := nowMs }
      else st
    let baseCount : Int :=
      match alistGet st1.counters key with
      | some existing => if counterIsExpired ttlMs existing nowMs then 0 else existing.count
      | none => 0
    let nextCount := baseCount + 1
    ({ st1 with
        counters :=
          pruneMapToMaxSize (alistTouch st1.counters key ⟨nextCount, nowMs⟩) maxTrackedKeys },
      nextCount)

/-- Fold a sequence of `increment` calls, collecting the returned counts. -/
def runCounter (o : CounterOptions) (st : CounterState) :
    List (String × Int) → CounterState × List Int
  | [] => (st, [])
  | (k, t) :: rest =>
    let (st1, n) := increment o st k t
    let (st2, ns) := runCounter o st1 rest
    (st2, n :: ns)

/-! ### Reply projection pipeline
(src/extensions/acpx/src/runtime-internals/process.ts, `createAcpReplyProjector`)

The collaborators `EmbeddedBlockChunker`, `createBlockReplyPipeline`,
`prefixSystemMessage` and `resolveToolDisplay`/`formatToolSummary` are not in
the source tree. They are modelled from the spec: the chunker is a text buffer
whose timing-based (non-forced) drain keeps text buffered and whose forced
drain dispatches the whole buffer as one block; the system-message prefixer
and the tool-summary formatter are abstract string transformers carried in the
parameters. -/

inductive AcpDeliveryMode where
  | live
  | final_only
deriving DecidableEq, Repr

inductive AcpMetaMode where
  | off
  | minimal
  | verbose
deriving DecidableEq, Repr

/-- `AcpProjectionSettings` (process.ts lines 297-306). -/
structure AcpProjectionSettings where
  deliveryMode : AcpDeliveryMode
  metaMode : AcpMetaMode
  showUsage : Bool
  maxTurnChars : Nat
  maxToolSummaryChars : Nat
  maxStatusChars : Nat
  maxMetaEventsPerTurn : Nat
  tagVisibility : List (String × Bool)
deriving DecidableEq, Repr

/-- `clampPositiveInteger` (process.ts lines 314-330); on the integer model
`Math.round` is the identity and a missing value stands for a non-number. -/
def clampPositiveInteger (value : Option Int) (fallback : Nat) (lo hi : Nat) : Nat :=
  match value with
  | none => fallback
  | some v => if v < (lo : Int) then lo else if (hi : Int) < v then hi else v.toNat

/-- Raw `cfg.acp.stream` options relevant to the projection settings. -/
structure RawAcpStreamConfig where
  deliveryMode : Option String
  metaMode : Option String
  showUsage : Option Bool
  maxTurnChars : Option Int
  maxToolSummaryChars : Option Int
  maxStatusChars : Option Int
  maxMetaEventsPerTurn : Option Int
  tagVisibility : Option (List (String × Bool))
deriving DecidableEq, Repr

/-- `resolveAcpDeliveryMode` (process.ts lines 336-338). -/
def resolveAcpDeliveryMode (value : Option String) : AcpDeliveryMode :=
  if value = some "final_only" then .final_only else .live

/-- `resolveAcpMetaMode` (process.ts lines 340-345). -/
def resolveAcpMetaMode (value : Option String) : AcpMetaMode :=
  if value = some "off" then .off
  else if value = some "minimal" then .minimal
  else if value = some "verbose" then .verbose
  else .minimal

/-- `resolveAcpProjectionSettings` (process.ts lines 365-397). -/
def resolveAcpProjectionSettings (stream : RawAcpStreamConfig) : AcpProjectionSettings where
  deliveryMode := resolveAcpDeliveryMode stream.deliveryMode
  metaMode := resolveAcpMetaMode stream.metaMode
  showUsage := stream.showUsage.getD false
  maxTurnChars := clampPositiveInteger stream.maxTurnChars 24000 1 500000
  maxToolSummaryChars := clampPositiveInteger stream.maxToolSummaryChars 320 64 8000
  maxStatusChars := clampPositiveInteger stream.maxStatusChars 320 64 8000
  maxMetaEventsPerTurn := clampPositiveInteger stream.maxMetaEventsPerTurn 64 1 2000
  tagVisibility := stream.tagVisibility.getD []


/-- `ACP_TAG_VISIBILITY_DEFAULTS` (process.ts lines 272-283). -/
def ACP_TAG_VISIBILITY_DEFAULTS : List (String × Bool) :=
  [("agent_message_chunk", true), ("tool_call", true), ("tool_call_update", true),
   ("usage_update", false), ("available_commands_update", false),
   ("current_mode_update", false), ("config_option_update", false),
   ("session_info_update", false), ("plan", false), ("agent_thought_chunk", false)]

/-- `TERMINAL_TOOL_STATUSES` (process.ts line 285). -/
def TERMINAL_TOOL_STATUSES : List String :=
  ["completed", "failed", "cancelled", "done", "error"]

/-- `truncateText` (process.ts lines 413-421). -/
def truncateText (input : String) (maxChars : Nat) : String :=
  if jsLength input ≤ maxChars then input
  else if maxChars ≤ 1 then jsTake input maxChars
  else jsTake input (maxChars - 1) ++ "…"

/-- `hashText` (process.ts lines 423-425). -/
def hashText (text : String) : String := jsTrim text

/-- `normalizeToolStatus` (process.ts lines 427-433). -/
def normalizeToolStatus (status : Option String) : Option String :=
  match status with
  | none => none
  | some s =>
    let normalized := jsToLower (jsTrim s)
    if normalized = "" then none else some normalized

/-- `isTagVisible` (process.ts lines 435-450). -/
def isTagVisible (settings : AcpProjectionSettings) (tag : Option String) : Bool :=
  match tag with
  | none => true
  | some t =>
    match alistGet settings.tagVisibility t with
    | some override => override
    | none =>
      match alistGet ACP_TAG_VISIBILITY_DEFAULTS t with
      | some dflt => dflt
      | none => true

/-- `ToolLifecycleState` (process.ts lines 308-312). -/
structure ToolLifecycleState where
  started : Bool
  terminal : Bool
  lastRenderedHash : Option String
deriving DecidableEq, Repr

inductive AcpDeliveryKind where
  | block
  | tool
deriving DecidableEq, Repr

/-- `AcpProjectedDeliveryMeta` (process.ts lines 287-292); `allowEdit` is
`none` where the source passes no meta field. -/
structure AcpDeliveryMeta where
  tag : Option String
  toolCallId : Option String
  toolStatus : Option String
  allowEdit : Option Bool
deriving DecidableEq, Repr

/-- One call to the injected `deliver(kind, payload, meta)` capability. -/
structure AcpDelivery where
  kind : AcpDeliveryKind
  text : String
  meta : Option AcpDeliveryMeta
deriving DecidableEq, Repr

/-- Parameters closed over by `createAcpReplyProjector`. The two abstract
string transformers stand for the missing `prefixSystemMessage` and
`formatToolSummary ∘ resolveToolDisplay` collaborators. -/
structure AcpPipeParams where
  shouldSendToolSummaries : Bool
  settings : AcpProjectionSettings
  prefixSystemMessage : String → String
  formatToolSummary : String → String

/-- Turn-scoped mutable state of the pipeline (process.ts lines 504-510) plus
the chunker buffer. -/
structure AcpPipeState where
  emittedTurnChars : Nat
  emittedMetaEvents : Nat
  truncationNoticeEmitted : Bool
  lastStatusHash : Option String
  lastToolHash : Option String
  lastUsageTuple : Option String
  toolLifecycleById : List (String × ToolLifecycleState)
  buffer : String
deriving DecidableEq, Repr

/-- The state created with the pipeline, and the result of `resetTurnState`
(process.ts lines 512-520) right after a forced flush emptied the buffer. -/
def initPipeState : AcpPipeState :=
  ⟨0, 0, false, none, none, none, [], ""⟩

/-- `renderToolSummaryText` (process.ts lines 452-471). -/
def renderToolSummaryText (p : AcpPipeParams) (text : String) (title status : Option String) :
    String :=
  let t := jsTrim (title.getD "")
  let parts : List String := if t ≠ "" then [t] else []
  let s := jsTrim (status.getD "")
  let parts := parts ++ (if s ≠ "" then [s!"status={s}"] else [])
  let fallback := jsTrim text
  let parts := if parts = [] ∧ fallback ≠ "" then [fallback] else parts
  let meta := String.intercalate " · " parts
  p.formatToolSummary (if meta ≠ "" then meta else "tool call")

/-- `consumeMetaQuota` (process.ts lines 539-548). -/
def consumeMetaQuota (p : AcpPipeParams) (st : AcpPipeState) (force : Bool) :
    AcpPipeState × Bool :=
  if force then (st, true)
  else if st.emittedMetaEvents ≥ p.settings.maxMetaEventsPerTurn then (st, false)
  else ({ st with emittedMetaEvents := st.emittedMetaEvents + 1 }, true)

/-- `drainChunker` plus the dispatch queue flush (process.ts lines 522-537):
a forced drain dispatches the whole buffer as one block; a non-forced drain is
timing-driven and modelled as keeping the text buffered. -/
def pipeFlush (p : AcpPipeParams) (st : AcpPipeState) (force : Bool) :
    AcpPipeState × List AcpDelivery :=
  if p.settings.deliveryMode = .final_only ∧ ¬force then (st, [])
  else if force then
    (if st.buffer = "" then (st, [])
     else ({ st with buffer := "" }, [⟨.block, st.buffer, none⟩]))
  else (st, [])

/-- `emitSystemStatus` (process.ts lines 550-579). -/
def emitSystemStatus (p : AcpPipeParams) (st : AcpPipeState) (text : String)
    (meta : Option AcpDeliveryMeta) (force dedupe : Bool) :
    AcpPipeState × List AcpDelivery :=
  if ¬p.shouldSendToolSummaries then (st, [])
  else if p.settings.metaMode = .off ∧ ¬force then (st, [])
  else
    let bounded := truncateText (jsTrim text) p.settings.maxStatusChars
    if bounded = "" then (st, [])
    else
      let formatted := p.prefixSystemMessage bounded
      let hash := hashText formatted
      if dedupe ∧ st.lastStatusHash = some hash then (st, [])
      else
        let quota := consumeMetaQuota p st force
        if !quota.2 then (quota.1, [])
        else
          let flushed :=
            if p.settings.deliveryMode = .live then pipeFlush p quota.1 true
            else (quota.1, [])
          ({ flushed.1 with lastStatusHash := some hash },
            flushed.2 ++ [⟨.tool, formatted, meta⟩])

/-- `emitTruncationNotice` (process.ts lines 650-665). -/
def emitTruncationNotice (p : AcpPipeParams) (st : AcpPipeState) :
    AcpPipeState × List AcpDelivery :=
  if st.truncationNoticeEmitted then (st, [])
  else
    emitSystemStatus p { st with truncationNoticeEmitted := true } "output truncated"
      (some ⟨some "session_info_update", none, none, none⟩) true false

/-- The normalized tool-call id `event.toolCallId?.trim() || undefined`. -/
def normalizeToolCallId (toolCallId : Option String) : Option String :=
  match toolCallId with
  | some i => if jsTrim i = "" then none else some (jsTrim i)
  | none => none

/-- The rendered (truncated) tool-summary text whose `hashText` drives the
dedup guards. -/
def toolRenderedText (p : AcpPipeParams) (text : String) (title status : Option String) :
    String :=
  truncateText (renderToolSummaryText p text title status) p.settings.maxToolSummaryChars

/-- `isTerminal` of `emitToolSummary`: the normalized status is one of the
terminal statuses. -/
def toolEventIsTerminal (status : Option String) : Bool :=
  match normalizeToolStatus status with
  | some s => TERMINAL_TOOL_STATUSES.contains s
  | none => false

/-- `isStart` of `emitToolSummary`: an in-progress status or a fresh
`tool_call` tag. -/
def toolEventIsStart (tag status : Option String) : Bool :=
  decide (normalizeToolStatus status = some "in_progress") || decide (tag = some "tool_call")

/-- The per-id lifecycle entry, defaulting to `{started: false, terminal:
false}` as in `emitToolSummary`. -/
def lifecycleOf (st : AcpPipeState) (id : String) : ToolLifecycleState :=
  (alistGet st.toolLifecycleById id).getD ⟨false, false, none⟩

/-- The dedup-guard phase of `emitToolSummary` (process.ts lines 599-629):
the possibly-updated state, and whether the event survived dedup. -/
def toolDedupGuard (p : AcpPipeParams) (st : AcpPipeState)
    (tag toolCallId status : Option String) (hash : String) : AcpPipeState × Bool :=
  if p.settings.metaMode = .verbose then
    (st, !decide (st.lastToolHash = some hash))
  else
    match normalizeToolCallId toolCallId with
    | some id =>
      let state0 := lifecycleOf st id
      if toolEventIsTerminal status && state0.terminal then (st, false)
      else if toolEventIsStart tag status && state0.started then (st, false)
      else if state0.lastRenderedHash = some hash then (st, false)
      else
        ({ st with
            toolLifecycleById :=
              alistSet st.toolLifecycleById id
                ⟨state0.started || toolEventIsStart tag status,
                 state0.terminal || toolEventIsTerminal status, some hash⟩ },
          true)
    | none => (st, !decide (st.lastToolHash = some hash))

/-- The delivery phase of `emitToolSummary` (process.ts lines 631-647):
meta quota, live-mode forced flush, tool delivery, tool-hash update. -/
def emitToolDeliver (p : AcpPipeParams) (stG : AcpPipeState) (toolSummary hash : String)
    (tag tid nstatus : Option String) (force : Bool) : AcpPipeState × List AcpDelivery :=
  let quota := consumeMetaQuota p stG force
  if !quota.2 then (quota.1, [])
  else
    let flushed :=
      if p.settings.deliveryMode = .live then pipeFlush p quota.1 true
      else (quota.1, [])
    ({ flushed.1 with lastToolHash := some hash },
      flushed.2 ++
        [⟨.tool, toolSummary,
          some ⟨tag, tid, nstatus,
            some (tid.isSome ∧ tag = some "tool_call_update" : Bool)⟩⟩])

/-- `emitToolSummary` (process.ts lines 581-648). -/
def emitToolSummary (p : AcpPipeParams) (st : AcpPipeState) (text : String)
    (tag toolCallId status title : Option String) (force : Bool) :
    AcpPipeState × List AcpDelivery :=
  if ¬p.shouldSendToolSummaries ∨ p.settings.metaMode = .off then (st, [])
  else if ¬isTagVisible p.settings tag then (st, [])
  else
    let toolSummary := toolRenderedText p text title status
    let hash := hashText toolSummary
    let guarded := toolDedupGuard p st tag toolCallId status hash
    if !guarded.2 then (guarded.1, [])
    else
      emitToolDeliver p guarded.1 toolSummary hash tag (normalizeToolCallId toolCallId)
        (normalizeToolStatus status) force

/-- `onEvent` (process.ts lines 667-728). -/
def onEvent (p : AcpPipeParams) (st : AcpPipeState) (e : AcpRuntimeEvent) :
    AcpPipeState × List AcpDelivery :=
  match e with
  | .text_delta text stream tag =>
    if (match stream with
        | some s => decide (s ≠ .output)
        | none => false) then (st, [])
    else if ¬isTagVisible p.settings tag then (st, [])
    else if text = "" then (st, [])
    else if st.emittedTurnChars ≥ p.settings.maxTurnChars then emitTruncationNotice p st
    else
      let remaining := p.settings.maxTurnChars - st.emittedTurnChars
      let accepted := if remaining < jsLength text then jsTake text remaining else text
      let st1 :=
        if 0 < jsLength accepted then
          { st with
              buffer := st.buffer ++ accepted,
              emittedTurnChars := st.emittedTurnChars + jsLength accepted }
        else st
      if jsLength accepted < jsLength text then emitTruncationNotice p st1 else (st1, [])
  | .status text tag used size =>
    if ¬isTagVisible p.settings tag then (st, [])
    else if tag = some "usage_update" then
      if ¬p.settings.showUsage then (st, [])
      else
        let usageTuple :=
          match used, size with
          | some u, some sz => s!"{u}/{sz}"
          | _, _ => hashText text
        if st.lastUsageTuple = some usageTuple then (st, [])
        else
          emitSystemStatus p { st with lastUsageTuple := some usageTuple } text
            (tag.map (fun t => ⟨some t, none, none, none⟩)) false true
    else
      emitSystemStatus p st text (tag.map (fun t => ⟨some t, none, none, none⟩)) false true
  | .tool_call text tag toolCallId status title =>
    emitToolSummary p st text tag toolCallId status title false
  | .done _ =>
    let flushed := pipeFlush p st true
    (initPipeState, flushed.2)
  | .error _ _ =>
    let flushed := pipeFlush p st true
    (initPipeState, flushed.2)

/-- Fold a sequence of runtime events through `onEvent`, concatenating the
delivery calls in order. -/
def runEvents (p : AcpPipeParams) (st : AcpPipeState) :
    List AcpRuntimeEvent → AcpPipeState × List AcpDelivery
  | [] => (st, [])
  | e :: rest =>
    let (st1, out1) := onEvent p st e
    let (st2, out2) := runEvents p st1 rest
    (st2, out1 ++ out2)

/-! ### Observables used by the claims -/

/-- The delivery carrying the forced "output truncated" notice
(`emitTruncationNotice`). -/
def truncDelivery (p : AcpPipeParams) : AcpDelivery :=
  ⟨.tool, p.prefixSystemMessage "output truncated",
    some ⟨some "session_info_update", none, none, none⟩⟩

/-- Concatenated text of the `block`-kind deliveries of an output trace (text
dispatched to the channel, in order). -/
def blockConcat (out : List AcpDelivery) : String :=
  (out.filter (fun d => d.kind == .block)).foldl (fun a d => a ++ d.text) ""

/-- An untagged output-stream text delta. -/
def isPlainOutputDelta : AcpRuntimeEvent → Bool
  | .text_delta _ (some .output) none => true
  | _ => false

/-- Total character count of the text deltas of an event sequence. -/
def totalTextLen : List AcpRuntimeEvent → Nat
  | [] => 0
  | .text_delta t _ _ :: rest => jsLength t + totalTextLen rest
  | _ :: rest => totalTextLen rest

/-- An event inside a turn (everything but a `done`/`error` turn boundary). -/
def isTurnEvent : AcpRuntimeEvent → Bool
  | .done _ => false
  | .error _ _ => false
  | _ => true

/-- A tool-call event whose normalized tool-call id is `X`. -/
def isToolCallFor (X : String) : AcpRuntimeEvent → Bool
  | .tool_call _ _ toolCallId _ _ => normalizeToolCallId toolCallId == some X
  | _ => false

/-- A delivery announcing a tool-call start (in-progress status or fresh
`tool_call` tag), recognisable from its meta fields. -/
def isStartDelivery (d : AcpDelivery) : Bool :=
  d.kind == .tool &&
    (match d.meta with
     | some m => decide (m.toolStatus = some "in_progress") || decide (m.tag = some "tool_call")
     | none => false)

/-! ### Supporting lemmas -/

lemma jsLength_take (s : String) (n : Nat) : jsLength (jsTake s n) = min n (jsLength s) := by
  simp [jsLength, jsTake]

lemma jsTake_full (s : String) : jsTake s (jsLength s) = s := by
  cases s with
  | mk l => simp [jsTake, jsLength]

lemma jsAppend_data (a b : String) : (a ++ b).data = a.data ++ b.data := by
  cases a; cases b; rfl

lemma jsLength_ne_zero_of_ne_empty (s : String) (h : s ≠ "") : jsLength s ≠ 0 := by
  cases s with
  | mk l =>
    cases l with
    | nil => exact absurd rfl h
    | cons c cs => simp [jsLength]

lemma jsAppend_ne_empty_right (a b : String) (h : b ≠ "") : a ++ b ≠ "" := by
  intro hab
  apply jsLength_ne_zero_of_ne_empty b h
  have hd : (a ++ b).data = [] := by rw [hab]
  rw [jsAppend_data] at hd
  have hb : b.data = [] := (List.append_eq_nil.mp hd).2
  simp [jsLength, hb]

lemma jsString_append_assoc (a b c : String) : a ++ b ++ c = a ++ (b ++ c) := by
  apply String.ext
  simp only [jsAppend_data, List.append_assoc]

lemma alistGet_set_self {α : Type} (m : List (String × α)) (k : String) (v : α) :
    alistGet (alistSet m k v) k = some v := by
  induction m with
  | nil => simp [alistSet, alistGet]
  | cons p rest ih =>
    by_cases h : p.1 = k
    · simp [alistSet, h, alistGet]
    · simp [alistSet, h, alistGet, ih]

lemma alistGet_set_other {α : Type} (m : List (String × α)) (k k' : String) (v : α)
    (h : k' ≠ k) : alistGet (alistSet m k v) k' = alistGet m k' := by
  induction m with
  | nil => simp [alistSet, alistGet, Ne.symm h]
  | cons p rest ih =>
    by_cases hp : p.1 = k
    · simp [alistSet, hp, alistGet, Ne.symm h]
    · by_cases hp' : p.1 = k'
      · simp [alistSet, hp, alistGet, hp', h]
      · simp [alistSet, hp, alistGet, hp', ih]

lemma length_pruneMapToMaxSize {α : Type} (m : List (String × α)) (maxSize : Int) :
    (pruneMapToMaxSize m maxSize).length = m.length - (m.length - maxSize.toNat) := by
  simp [pruneMapToMaxSize]

lemma clampPositiveInteger_bounds (value : Option Int) (fallback lo hi : Nat)
    (hf : lo ≤ fallback ∧ fallback ≤ hi) (hlh : lo ≤ hi) :
    lo ≤ clampPositiveInteger value fallback lo hi ∧
      clampPositiveInteger value fallback lo hi ≤ hi := by
  match value with
  | none => simpa [clampPositiveInteger] using hf
  | some v =>
    simp only [clampPositiveInteger]
    split
    · omega
    · split <;> omega

/-- Every resolved settings record satisfies the documented clamp bounds
(justifying hypotheses such as `64 ≤ maxStatusChars` below). -/
lemma resolveAcpProjectionSettings_bounds (stream : RawAcpStreamConfig) :
    1 ≤ (resolveAcpProjectionSettings stream).maxTurnChars ∧
      64 ≤ (resolveAcpProjectionSettings stream).maxStatusChars ∧
      64 ≤ (resolveAcpProjectionSettings stream).maxToolSummaryChars ∧
      1 ≤ (resolveAcpProjectionSettings stream).maxMetaEventsPerTurn := by
  refine ⟨?_, ?_, ?_, ?_⟩
  · exact (clampPositiveInteger_bounds _ 24000 1 500000 (by omega) (by omega)).1
  · exact (clampPositiveInteger_bounds _ 320 64 8000 (by omega) (by omega)).1
  · exact (clampPositiveInteger_bounds _ 320 64 8000 (by omega) (by omega)).1
  · exact (clampPositiveInteger_bounds _ 64 1 2000 (by omega) (by omega)).1

lemma parseJson_empty : parseJson "" = none := rfl

/-! ### Claims about the prompt stream projector -/

/-- C5: for every line whose trimmed text is non-empty but fails strict
structured decoding, `ingestLine` returns a status event whose text is the
raw trimmed line; a blank line returns nothing. `ingestLine` is a total
function of the embedding, so no input throws. -/
theorem C5_malformed_line_status (ids : List String) (line : String) :
    (jsTrim line = "" → ingestLine ids line = (ids, none)) ∧
    (jsTrim line ≠ "" → parseJson (jsTrim line) = none →
      ingestLine ids line = (ids, some (.status (jsTrim line) none none none))) := by
  constructor
  · intro h
    simp [ingestLine, h]
  · intro h hp
    simp [ingestLine, h, hp]

/-- Witness for C5 at the blank line `"  "` and the undecodable line
`" not-json "`. -/
theorem C5_witness :
    ingestLine ["7"] "  " = (["7"], none) ∧
    ingestLine ["7"] " not-json " = (["7"], some (.status "not-json" none none none)) := by
  constructor
  · exact (C5_malformed_line_status ["7"] "  ").1 (by decide)
  · have h := (C5_malformed_line_status ["7"] " not-json ").2 (by decide) rfl
    have ht : jsTrim " not-json " = "not-json" := by decide
    rw [ht] at h
    exact h

/-- C10: session-update notifications are projected to runtime events
regardless of whether any prompt is in flight — for every valid
`session/update` line, `ingestLine` returns the parsed event for any
correlation-set state, including the empty one; only error/done responses are
gated on the correlation set. -/
theorem C10_ungated_session_updates (ids : List String) (line : String)
    (m : List (String × JsValue)) (e : AcpRuntimeEvent)
    (hp : parseJson (jsTrim line) = some (.obj m))
    (hmsg : isAcpJsonRpcMessage (.obj m) = true)
    (hup : parseSessionUpdateEvent m = some e) :
    ingestLine ids line = (ids, some e) := by
  have hne : jsTrim line ≠ "" := by
    intro h
    rw [h, parseJson_empty] at hp
    cases hp
  simp [ingestLine, hne, hp, ingestParsed, hmsg, hup]

/-- Witness for C10: a message-chunk update line is projected with an empty
correlation set. -/
theorem C10_witness :
    ingestLine []
        "\x7b\"jsonrpc\":\"2.0\",\"method\":\"session/update\",\"params\":\x7b\"update\":\x7b\"sessionUpdate\":\"agent_message_chunk\",\"content\":\x7b\"type\":\"text\",\"text\":\"hi\"\x7d\x7d\x7d\x7d"
      = ([], some (.text_delta "hi" (some .output) none)) := by
  refine C10_ungated_session_updates [] _
    [("jsonrpc", .str "2.0"), ("method", .str "session/update"),
     ("params", .obj [("update", .obj
       [("sessionUpdate", .str "agent_message_chunk"),
        ("content", .obj [("type", .str "text"), ("text", .str "hi")])])])]
    (.text_delta "hi" (some .output) none) rfl (by decide) (by decide)

/-- C6 counterexample: a message chunk whose `content` has a `text` field but
no `type` field yields no event at all (the claim requires
`text_delta{text: "hi", stream: output}` when `content.type` is absent). -/
theorem C6_counterexample :
    (ingestLine []
        "\x7b\"jsonrpc\":\"2.0\",\"method\":\"session/update\",\"params\":\x7b\"update\":\x7b\"sessionUpdate\":\"agent_message_chunk\",\"content\":\x7b\"text\":\"hi\"\x7d\x7d\x7d\x7d").2
      = none ∧
    (ingestLine []
        "\x7b\"jsonrpc\":\"2.0\",\"method\":\"session/update\",\"params\":\x7b\"update\":\x7b\"sessionUpdate\":\"agent_message_chunk\",\"content\":\x7b\"text\":\"hi\"\x7d\x7d\x7d\x7d").2
      ≠ some (.text_delta "hi" (some .output) none) := by
  constructor
  · decide
  · decide

/-- C6 (amended): for every message-chunk session update, the projector emits
`text_delta{stream: output}` whose text equals `content.text` exactly (no
trimming, whitespace preserved) when `content` is a record whose `type` field
trims to `"text"` and `content.text` is a non-empty string; a
present-but-empty text field produces no event; when `content.type` is absent
or different the update produces no event (there is no fallback text field in
this projector variant). -/
theorem C6_amended_message_chunk (m params update content : List (String × JsValue))
    (hm : asTrimmedString (alistGet m "method") = "session/update")
    (hp : alistGet m "params" = some (.obj params))
    (hu : alistGet params "update" = some (.obj update))
    (hk : asTrimmedString (alistGet update "sessionUpdate") = "agent_message_chunk")
    (hc : alistGet update "content" = some (.obj content)) :
    (asTrimmedString (alistGet content "type") = "text" →
      ∀ t, alistGet content "text" = some (.str t) → t ≠ "" →
        parseSessionUpdateEvent m = some (.text_delta t (some .output) none)) ∧
    (alistGet content "text" = some (.str "") → parseSessionUpdateEvent m = none) ∧
    (asTrimmedString (alistGet content "type") ≠ "text" →
      parseSessionUpdateEvent m = none) := by
  refine ⟨?_, ?_, ?_⟩
  · intro hty t htext hne
    simp [parseSessionUpdateEvent, hm, hp, hu, parseSessionUpdateKind, hk, hc, hty,
      asString, htext, hne]
  · intro htext
    by_cases hty : asTrimmedString (alistGet content "type") = "text"
    · simp [parseSessionUpdateEvent, hm, hp, hu, parseSessionUpdateKind, hk, hc, hty,
        asString, htext]
    · simp [parseSessionUpdateEvent, hm, hp, hu, parseSessionUpdateKind, hk, hc, hty]
  · intro hty
    simp [parseSessionUpdateEvent, hm, hp, hu, parseSessionUpdateKind, hk, hc, hty]

/-- Witness for C6 (amended), at the spec's own example chunk text
`"  indented"`: the leading spaces are preserved. -/
theorem C6_witness :
    parseSessionUpdateEvent
        [("method", .str "session/update"),
         ("params", .obj [("update", .obj
           [("sessionUpdate", .str "agent_message_chunk"),
            ("content", .obj [("type", .str "text"), ("text", .str "  indented")])])])]
      = some (.text_delta "  indented" (some .output) none) := by
  exact (C6_amended_message_chunk
    [("method", .str "session/update"),
     ("params", .obj [("update", .obj
       [("sessionUpdate", .str "agent_message_chunk"),
        ("content", .obj [("type", .str "text"), ("text", .str "  indented")])])])]
    [("update", .obj
       [("sessionUpdate", .str "agent_message_chunk"),
        ("content", .obj [("type", .str "text"), ("text", .str "  indented")])])]
    [("sessionUpdate", .str "agent_message_chunk"),
     ("content", .obj [("type", .str "text"), ("text", .str "  indented")])]
    [("type", .str "text"), ("text", .str "  indented")]
    (by decide) rfl rfl (by decide) rfl).1 (by decide) "  indented" rfl (by decide)

/-- C9 counterexample: a `config_option_update` carrying an option id and
value yields the status text `"config options updated (0)"`, not the claimed
`"config updated: theme=dark"`. -/
theorem C9_counterexample :
    (ingestLine []
        "\x7b\"jsonrpc\":\"2.0\",\"method\":\"session/update\",\"params\":\x7b\"update\":\x7b\"sessionUpdate\":\"config_option_update\",\"id\":\"theme\",\"value\":\"dark\"\x7d\x7d\x7d").2
      = some (.status "config options updated (0)" none none none) ∧
    (ingestLine []
        "\x7b\"jsonrpc\":\"2.0\",\"method\":\"session/update\",\"params\":\x7b\"update\":\x7b\"sessionUpdate\":\"config_option_update\",\"id\":\"theme\",\"value\":\"dark\"\x7d\x7d\x7d").2
      ≠ some (.status "config updated: theme=dark" none none none) := by
  constructor
  · decide
  · decide

/-- C9 (amended): for every config-option session update, the projector emits
a status event with text `"config options updated (N)"` where `N` is the
number of entries of the `configOptions` array (0 when it is missing or not
an array); the option id and value are not echoed by this projector
variant. -/
theorem C9_amended_config_option_status (m params update : List (String × JsValue))
    (hm : asTrimmedString (alistGet m "method") = "session/update")
    (hp : alistGet m "params" = some (.obj params))
    (hu : alistGet params "update" = some (.obj update))
    (hk : asTrimmedString (alistGet update "sessionUpdate") = "config_option_update") :
    parseSessionUpdateEvent m
      = some (.status s!"config options updated ({configOptionsCount update})"
          none none none) := by
  simp [parseSessionUpdateEvent, hm, hp, hu, parseSessionUpdateKind, hk]

/-- Witness for C9 (amended) on an update with two configOptions entries. -/
theorem C9_witness :
    parseSessionUpdateEvent
        [("method", .str "session/update"),
         ("params", .obj [("update", .obj
           [("sessionUpdate", .str "config_option_update"),
            ("configOptions", .arr [.obj [], .obj []])])])]
      = some (.status "config options updated (2)" none none none) := by
  have h := C9_amended_config_option_status
    [("method", .str "session/update"),
     ("params", .obj [("update", .obj
       [("sessionUpdate", .str "config_option_update"),
        ("configOptions", .arr [.obj [], .obj []])])])]
    [("update", .obj
       [("sessionUpdate", .str "config_option_update"),
        ("configOptions", .arr [.obj [], .obj []])])]
    [("sessionUpdate", .str "config_option_update"),
     ("configOptions", .arr [.obj [], .obj []])]
    (by decide) rfl rfl (by decide)
  simpa using h

lemma shouldHandlePromptResponse_iff (ids : List String) (m : List (String × JsValue)) :
    shouldHandlePromptResponse ids m = true ↔
      ∃ k, normalizeJsonRpcId (alistGet m "id") = some k ∧ k ∈ ids := by
  unfold shouldHandlePromptResponse
  cases h : normalizeJsonRpcId (alistGet m "id") with
  | none => simp
  | some k => simp [List.elem_iff, List.contains]

/-- C1 counterexample: after a prompt request with id `3` and the matching
`end_turn` response, the projector emits `done` yet the correlation set still
contains `"3"` — consuming a matching response does not remove the id (the
claim requires the id to be removed from the set). -/
theorem C1_counterexample :
    (ingestLine [] "\x7b\"jsonrpc\":\"2.0\",\"id\":3,\"method\":\"session/prompt\"\x7d").1
      = ["3"] ∧
    (ingestLine ["3"]
        "\x7b\"jsonrpc\":\"2.0\",\"id\":3,\"result\":\x7b\"stopReason\":\"end_turn\"\x7d\x7d").2
      = some (.done "end_turn") ∧
    (ingestLine ["3"]
        "\x7b\"jsonrpc\":\"2.0\",\"id\":3,\"result\":\x7b\"stopReason\":\"end_turn\"\x7d\x7d").1
      = ["3"] := by
  refine ⟨by decide, by decide, by decide⟩

/-- C1 (amended): for every response carrying an error or a non-empty
`result.stopReason`, `ingestLine` emits the corresponding error/done event if
and only if the response's normalized id is currently in the prompt
correlation set (unrelated responses yield nothing) — but consuming such a
matching response leaves the correlation set unchanged; the id is never
removed. -/
theorem C1_response_gating_without_removal (ids : List String)
    (m : List (String × JsValue))
    (hmsg : isAcpJsonRpcMessage (.obj m) = true)
    (hnom : alistGet m "method" = none)
    (hresp : hasOwn m "error" = true ∨ parsePromptStopReason m ≠ none) :
    (ingestParsed ids (.obj m)).1 = ids ∧
    ((ingestParsed ids (.obj m)).2 ≠ none ↔
      ∃ k, normalizeJsonRpcId (alistGet m "id") = some k ∧ k ∈ ids) ∧
    (hasOwn m "error" = true → shouldHandlePromptResponse ids m = true →
      (ingestParsed ids (.obj m)).2 = some (mkPromptErrorEvent m)) ∧
    (hasOwn m "error" = false → ∀ r, parsePromptStopReason m = some r →
      shouldHandlePromptResponse ids m = true →
      (ingestParsed ids (.obj m)).2 = some (.done r)) := by
  have hiff := shouldHandlePromptResponse_iff ids m
  have hmeth : asTrimmedString (alistGet m "method") = "" := by
    rw [hnom]; rfl
  have hupd : parseSessionUpdateEvent m = none := by
    unfold parseSessionUpdateEvent
    rw [hmeth]
    simp
  by_cases hsh : shouldHandlePromptResponse ids m = true
  all_goals rcases herr : hasOwn m "error" with _ | _
  · -- in set, no error field: done event, set unchanged
    obtain ⟨r, hr⟩ : ∃ r, parsePromptStopReason m = some r := by
      rcases hresp with h | h
      · rw [herr] at h; cases h
      · cases hpr : parsePromptStopReason m with
        | none => exact absurd hpr h
        | some r => exact ⟨r, rfl⟩
    have hres : ingestParsed ids (.obj m) = (ids, some (.done r)) := by
      simp [ingestParsed, hmsg, hupd, hmeth, herr, hr, hsh]
    rw [hres]
    refine ⟨rfl, ?_, ?_, ?_⟩
    · simp only [ne_eq, reduceCtorEq, not_false_eq_true, true_iff]
      exact hiff.mp hsh
    · intro hc
      exact Bool.noConfusion hc
    · intro _ r' hr' _
      rw [hr] at hr'
      cases hr'
      rfl
  · -- in set, error field present: error event, set unchanged
    have hres : ingestParsed ids (.obj m) = (ids, some (mkPromptErrorEvent m)) := by
      simp [ingestParsed, hmsg, hupd, hmeth, herr, hsh]
    rw [hres]
    refine ⟨rfl, ?_, ?_, ?_⟩
    · simp only [ne_eq, reduceCtorEq, not_false_eq_true, true_iff]
      exact hiff.mp hsh
    · intro _ _
      rfl
    · intro hc
      exact Bool.noConfusion hc

  · -- not in set, no error field: a stop-reason response, ignored
    obtain ⟨r, hr⟩ : ∃ r, parsePromptStopReason m = some r := by
      rcases hresp with h | h
      · rw [herr] at h; cases h
      · cases hpr : parsePromptStopReason m with
        | none => exact absurd hpr h
        | some r => exact ⟨r, rfl⟩
    have hres : ingestParsed ids (.obj m) = (ids, none) := by
      simp [ingestParsed, hmsg, hupd, hmeth, herr, hr, hsh]
    rw [hres]
    refine ⟨rfl, ?_, ?_, ?_⟩
    · simp only [ne_eq, not_true_eq_false, false_iff]
      intro hex
      exact hsh (hiff.mpr hex)
    · intro hc
      exact Bool.noConfusion hc
    · intro _ r' _ hc
      exact absurd hc hsh
  · -- not in set, error field present: ignored
    have hres : ingestParsed ids (.obj m) = (ids, none) := by
      simp [ingestParsed, hmsg, hupd, hmeth, herr, hsh]
    rw [hres]
    refine ⟨rfl, ?_, ?_, ?_⟩
    · simp only [ne_eq, not_true_eq_false, false_iff]
      intro hex
      exact hsh (hiff.mpr hex)
    · intro _ hc
      exact absurd hc hsh
    · intro hc
      exact Bool.noConfusion hc
/-- Witness for C1 (amended): the matching `end_turn` response on id `"3"`
emits `done` and leaves the set as `["3"]`; the same response against the set
`["7"]` yields nothing. -/
theorem C1_witness :
    (ingestParsed ["3"]
        (.obj [("id", .num 3), ("result", .obj [("stopReason", .str "end_turn")])])).2
      = some (.done "end_turn") ∧
    (ingestParsed ["3"]
        (.obj [("id", .num 3), ("result", .obj [("stopReason", .str "end_turn")])])).1
      = ["3"] ∧
    (ingestParsed ["7"]
        (.obj [("id", .num 3), ("result", .obj [("stopReason", .str "end_turn")])])).2
      = none := by
  have h3 := C1_response_gating_without_removal ["3"]
    [("id", .num 3), ("result", .obj [("stopReason", .str "end_turn")])]
    (by decide) rfl (Or.inr (by decide))
  have h7 := C1_response_gating_without_removal ["7"]
    [("id", .num 3), ("result", .obj [("stopReason", .str "end_turn")])]
    (by decide) rfl (Or.inr (by decide))
  refine ⟨?_, h3.1, ?_⟩
  · exact h3.2.2.2 (by decide) "end_turn" (by decide) (by decide)
  · by_contra hne
    rcases (h7.2.1).mp hne with ⟨k, hk, hmem⟩
    have hk3 : normalizeJsonRpcId (alistGet
        [("id", JsValue.num 3), ("result", JsValue.obj [("stopReason", JsValue.str "end_turn")])]
        "id") = some "3" := by decide
    rw [hk3] at hk
    cases hk
    simp at hmem

/-! ### Claims about the bounded resource guards -/

lemma isRateLimited_inWindow (o : RateLimiterOptions) (hw : 1 ≤ o.windowMs)
    (hm : 1 ≤ o.maxRequests) (hk : 1 ≤ o.maxTrackedKeys) (k : String) (hkne : k ≠ "")
    (c t0 lp t : Int) (hin : t - t0 < o.windowMs) :
    ∃ lp', isRateLimited o ⟨[(k, ⟨c, t0⟩)], lp⟩ k t
      = (⟨[(k, ⟨c + 1, t0⟩)], lp'⟩, decide (c + 1 > o.maxRequests)) := by
  have hwmax : max 1 o.windowMs = o.windowMs := max_eq_right hw
  have hkmax : max 1 o.maxTrackedKeys = o.maxTrackedKeys := max_eq_right hk
  have hmmax : max 1 o.maxRequests = o.maxRequests := max_eq_right hm
  have hkeep : decide (t - t0 < o.windowMs) = true := by simpa using hin
  have hnexp : ¬(t - t0 ≥ o.windowMs) := not_le.mpr hin
  have hdrop : (1 : Nat) - o.maxTrackedKeys.toNat = 0 := by omega
  unfold isRateLimited
  rw [if_neg hkne]
  simp only [hwmax, hkmax, hmmax]
  by_cases hpr : t - lp ≥ 1 ⊔ o.pruneIntervalMs.getD o.windowMs
  · refine ⟨t, ?_⟩
    rw [if_pos hpr]
    simp [limiterSweep, hkeep, alistGet, hnexp, alistTouch, alistErase,
      pruneMapToMaxSize, hdrop]
  · refine ⟨lp, ?_⟩
    rw [if_neg hpr]
    simp [alistGet, hnexp, alistTouch, alistErase, pruneMapToMaxSize, hdrop]

lemma isRateLimited_first (o : RateLimiterOptions) (_hw : 1 ≤ o.windowMs)
    (hk : 1 ≤ o.maxTrackedKeys) (k : String) (hkne : k ≠ "") (t0 : Int) :
    ∃ lp', isRateLimited o initLimiterState k t0
      = (⟨[(k, ⟨1, t0⟩)], lp'⟩, false) := by
  have hkmax : max 1 o.maxTrackedKeys = o.maxTrackedKeys := max_eq_right hk
  have hdrop : (1 : Nat) - o.maxTrackedKeys.toNat = 0 := by omega
  unfold isRateLimited initLimiterState
  rw [if_neg hkne]
  simp only [hkmax]
  by_cases hpr : t0 - 0 ≥ 1 ⊔ o.pruneIntervalMs.getD (1 ⊔ o.windowMs)
  · refine ⟨t0, ?_⟩
    rw [if_pos hpr]
    simp [limiterSweep, alistGet, alistTouch, alistErase, pruneMapToMaxSize, hdrop]
  · refine ⟨0, ?_⟩
    rw [if_neg hpr]
    simp [alistGet, alistTouch, alistErase, pruneMapToMaxSize, hdrop]

lemma runLimiter_inWindow (o : RateLimiterOptions) (hw : 1 ≤ o.windowMs)
    (hm : 1 ≤ o.maxRequests) (hk : 1 ≤ o.maxTrackedKeys) (k : String) (hkne : k ≠ "")
    (t0 : Int) :
    ∀ (ts : List Int) (c lp : Int), (∀ t ∈ ts, t - t0 < o.windowMs) →
      (runLimiter o ⟨[(k, ⟨c, t0⟩)], lp⟩ (ts.map (fun t => (k, t)))).2
          = (List.range ts.length).map (fun i : Nat => decide (c + (i : Int) + 1 > o.maxRequests))
      ∧ ∃ lp', (runLimiter o ⟨[(k, ⟨c, t0⟩)], lp⟩ (ts.map (fun t => (k, t)))).1
          = ⟨[(k, ⟨c + (ts.length : Int), t0⟩)], lp'⟩ := by
  intro ts
  induction ts with
  | nil =>
    intro c lp _
    exact ⟨rfl, lp, by simp [runLimiter]⟩
  | cons t ts ih =>
    intro c lp hts
    obtain ⟨lp', hstep⟩ := isRateLimited_inWindow o hw hm hk k hkne c t0 lp t
      (hts t (by simp))
    have ihr := ih (c + 1) lp' (fun t' ht' => hts t' (by simp [ht']))
    constructor
    · simp only [List.map_cons, runLimiter, hstep, ihr.1, List.length_cons]
      rw [List.range_succ_eq_map]
      simp only [List.map_cons, List.map_map]
      congr 1
      · rw [decide_eq_decide]
        push_cast
        omega
      · apply List.map_congr_left
        intro i _
        simp only [Function.comp_apply]
        rw [decide_eq_decide]
        push_cast
        omega
    · obtain ⟨lp'', hfin⟩ := ihr.2
      refine ⟨lp'', ?_⟩
      have hstate : (runLimiter o ⟨[(k, ⟨c, t0⟩)], lp⟩ ((t :: ts).map (fun t => (k, t)))).1
          = ⟨[(k, ⟨c + 1 + (ts.length : Int), t0⟩)], lp''⟩ := by
        simp only [List.map_cons, runLimiter, hstep, hfin]
      rw [hstate, List.length_cons]
      have hcast : c + 1 + (ts.length : Int) = c + (((ts.length + 1 : Nat)) : Int) := by
        push_cast
        ring
      rw [hcast]

/-- C4 counterexample: for the empty key and `maxRequests = 1`, the first call
starts no window at all (the map stays empty) and the second in-window call
still returns `false`, where the claim requires a new window after the first
call and `true` from the second call (count 2 > 1). -/
theorem C4_counterexample :
    (isRateLimited ⟨1000, 1, 100, none⟩ initLimiterState "" 0).2 = false ∧
    (isRateLimited ⟨1000, 1, 100, none⟩ initLimiterState "" 0).1.entries = [] ∧
    (isRateLimited ⟨1000, 1, 100, none⟩
        ((isRateLimited ⟨1000, 1, 100, none⟩ initLimiterState "" 0).1) "" 1).2 = false := by
  refine ⟨by decide, by decide, by decide⟩

/-- C4 (amended): for every non-empty key `k` and fixed window — the first
call with no live window starts a new window and returns `false`; each
subsequent in-window call increments the count and returns `true` iff the new
count exceeds `maxRequests` (so `maxRequests` calls inside one window all
return `false` and the next in-window call returns `true`); once `windowMs`
has elapsed from the window start, the next call returns `false`. The empty
key is never tracked and never limited. -/
theorem C4_fixed_window_behavior (o : RateLimiterOptions) (hw : 1 ≤ o.windowMs)
    (hm : 1 ≤ o.maxRequests) (hk : 1 ≤ o.maxTrackedKeys) (k : String) (hkne : k ≠ "")
    (t0 : Int) (ts : List Int) (hts : ∀ t ∈ ts, t - t0 < o.windowMs) :
    ((runLimiter o initLimiterState ((t0 :: ts).map (fun t => (k, t)))).2
        = (List.range (ts.length + 1)).map
            (fun i : Nat => decide ((i : Int) + 1 > o.maxRequests)))
    ∧ (∃ lp', (runLimiter o initLimiterState ((t0 :: ts).map (fun t => (k, t)))).1
        = ⟨[(k, ⟨(ts.length : Int) + 1, t0⟩)], lp'⟩)
    ∧ (∀ (c lp t' : Int), t' - t0 ≥ o.windowMs →
        (isRateLimited o ⟨[(k, ⟨c, t0⟩)], lp⟩ k t').2 = false) := by
  obtain ⟨lp1, hfirst⟩ := isRateLimited_first o hw hk k hkne t0
  have hrun := runLimiter_inWindow o hw hm hk k hkne t0 ts 1 lp1 hts
  refine ⟨?_, ?_, ?_⟩
  · simp only [List.map_cons, runLimiter, hfirst, hrun.1]
    rw [List.range_succ_eq_map]
    simp only [List.map_cons, List.map_map]
    congr 1
    · exact (decide_eq_false (by push_cast; omega)).symm
    · apply List.map_congr_left
      intro i _
      simp only [Function.comp_apply]
      rw [decide_eq_decide]
      push_cast
      omega
  · obtain ⟨lp'', hfin⟩ := hrun.2
    refine ⟨lp'', ?_⟩
    have hstate : (runLimiter o initLimiterState ((t0 :: ts).map (fun t => (k, t)))).1
        = ⟨[(k, ⟨1 + (ts.length : Int), t0⟩)], lp''⟩ := by
      simp only [List.map_cons, runLimiter, hfirst, hfin]
    rw [hstate]
    have hcast : 1 + (ts.length : Int) = (ts.length : Int) + 1 := by ring
    rw [hcast]
  · intro c lp t' helapsed
    have hwmax : max 1 o.windowMs = o.windowMs := max_eq_right hw
    unfold isRateLimited
    rw [if_neg hkne]
    simp only [hwmax]
    by_cases hpr : t' - lp ≥ 1 ⊔ o.pruneIntervalMs.getD o.windowMs
    · rw [if_pos hpr]
      have hgone : decide (t' - t0 < o.windowMs) = false := by
        simp [not_lt.mpr helapsed]
      simp [limiterSweep, hgone, alistGet]
    · rw [if_neg hpr]
      simp [alistGet, helapsed]

/-- Witness for C4 (amended): window 1000, maxRequests 2 — three calls inside
the window yield `false, false, true`, and a call 1000ms after the window
start is not limited. -/
theorem C4_witness :
    ((runLimiter ⟨1000, 2, 10, none⟩ initLimiterState
        (((0 : Int) :: [1, 2]).map (fun t => ("k", t)))).2
      = (List.range ([1, 2].length + 1)).map
          (fun i => decide ((i : Int) + 1 > (⟨1000, 2, 10, none⟩ : RateLimiterOptions).maxRequests)))
    ∧ (∀ (c lp t' : Int), t' - 0 ≥ (⟨1000, 2, 10, none⟩ : RateLimiterOptions).windowMs →
        (isRateLimited ⟨1000, 2, 10, none⟩ ⟨[("k", ⟨c, 0⟩)], lp⟩ "k" t').2 = false) := by
  have h := C4_fixed_window_behavior ⟨1000, 2, 10, none⟩ (by decide) (by decide) (by decide)
    "k" (by decide) 0 [1, 2] (by decide)
  exact ⟨h.1, h.2.2⟩

lemma increment_size_le (o : CounterOptions) (hk : 1 ≤ o.maxTrackedKeys)
    (st : CounterState) (key : String) (nowMs : Int)
    (h : (st.counters.length : Int) ≤ o.maxTrackedKeys) :
    (((increment o st key nowMs).1.counters.length : Int)) ≤ o.maxTrackedKeys := by
  unfold increment
  by_cases hkey : key = ""
  · simpa [hkey] using h
  · rw [if_neg hkey]
    simp only [length_pruneMapToMaxSize]
    have hkmax : max 1 o.maxTrackedKeys = o.maxTrackedKeys := max_eq_right hk
    rw [hkmax]
    omega

lemma isRateLimited_size_le (o : RateLimiterOptions) (hk : 1 ≤ o.maxTrackedKeys)
    (st : LimiterState) (key : String) (nowMs : Int)
    (h : (st.entries.length : Int) ≤ o.maxTrackedKeys) :
    (((isRateLimited o st key nowMs).1.entries.length : Int)) ≤ o.maxTrackedKeys := by
  unfold isRateLimited
  by_cases hkey : key = ""
  · simpa [hkey] using h
  · rw [if_neg hkey]
    have hkmax : max 1 o.maxTrackedKeys = o.maxTrackedKeys := max_eq_right hk
    dsimp only
    split
    · simp only [length_pruneMapToMaxSize, hkmax]
      omega
    · split
      · simp only [length_pruneMapToMaxSize, hkmax]
        omega
      · simp only [length_pruneMapToMaxSize, hkmax]
        omega

/-- C8: for every sequence of `increment`/`isRateLimited` calls, the bounded
guards' key maps never exceed the configured `maxTrackedKeys`: from the empty
initial state, `size()` (the length of the key map) stays at most
`maxTrackedKeys` for both the bounded counter and the fixed-window limiter —
the modelled `pruneMapToMaxSize` caps every mutation by evicting the
least-recently-touched (oldest) entries first. -/
theorem C8_bounded_key_maps (oc : CounterOptions) (ol : RateLimiterOptions)
    (hc : 1 ≤ oc.maxTrackedKeys) (hl : 1 ≤ ol.maxTrackedKeys)
    (cCalls lCalls : List (String × Int)) :
    (((runCounter oc initCounterState cCalls).1.counters.length : Int)) ≤ oc.maxTrackedKeys
    ∧ (((runLimiter ol initLimiterState lCalls).1.entries.length : Int)) ≤ ol.maxTrackedKeys := by
  constructor
  · have hgen : ∀ (calls : List (String × Int)) (st : CounterState),
        ((st.counters.length : Int)) ≤ oc.maxTrackedKeys →
        (((runCounter oc st calls).1.counters.length : Int)) ≤ oc.maxTrackedKeys := by
      intro calls
      induction calls with
      | nil => intro st h; simpa [runCounter] using h
      | cons c rest ih =>
        intro st h
        simp only [runCounter]
        exact ih _ (increment_size_le oc hc st c.1 c.2 h)
    exact hgen cCalls initCounterState (by simp [initCounterState]; omega)
  · have hgen : ∀ (calls : List (String × Int)) (st : LimiterState),
        ((st.entries.length : Int)) ≤ ol.maxTrackedKeys →
        (((runLimiter ol st calls).1.entries.length : Int)) ≤ ol.maxTrackedKeys := by
      intro calls
      induction calls with
      | nil => intro st h; simpa [runLimiter] using h
      | cons c rest ih =>
        intro st h
        simp only [runLimiter]
        exact ih _ (isRateLimited_size_le ol hl st c.1 c.2 h)
    exact hgen lCalls initLimiterState (by simp [initLimiterState]; omega)

/-- Witness for C8: ten distinct keys against a counter capped at 3 and a
limiter capped at 5. -/
theorem C8_witness :
    (((runCounter ⟨3, none, none⟩ initCounterState
        ((List.range 10).map (fun i => (s!"k-{i}", (1000 + i : Int))))).1.counters.length : Int))
      ≤ 3
    ∧ (((runLimiter ⟨60000, 10, 5, none⟩ initLimiterState
        ((List.range 10).map (fun i => (s!"key-{i}", (1000 + i : Int))))).1.entries.length : Int))
      ≤ 5 :=
  C8_bounded_key_maps ⟨3, none, none⟩ ⟨60000, 10, 5, none⟩ (by decide) (by decide) _ _

/-! ### Claims about the reply projection pipeline -/

lemma onEvent_status_fresh (p : AcpPipeParams) (hs : p.shouldSendToolSummaries = true)
    (hmo : p.settings.metaMode ≠ .off) (hq : 1 ≤ p.settings.maxMetaEventsPerTurn)
    (t : String) (hb : truncateText (jsTrim t) p.settings.maxStatusChars ≠ "") :
    onEvent p initPipeState (.status t none none none)
      = ({ initPipeState with
            emittedMetaEvents := 1,
            lastStatusHash :=
              some (hashText (p.prefixSystemMessage
                (truncateText (jsTrim t) p.settings.maxStatusChars))) },
         [⟨.tool, p.prefixSystemMessage (truncateText (jsTrim t) p.settings.maxStatusChars),
           none⟩]) := by
  have hquota : consumeMetaQuota p initPipeState false
      = ({ initPipeState with emittedMetaEvents := 1 }, true) := by
    have h0 : initPipeState.emittedMetaEvents = 0 := rfl
    have hne : ¬p.settings.maxMetaEventsPerTurn = 0 := by omega
    simp [consumeMetaQuota, h0, hne]
  simp only [onEvent, isTagVisible, emitSystemStatus, hs, hquota]
  rw [if_neg (by simp)]
  rw [if_neg (by simp : ¬((none : Option String) = some "usage_update"))]
  rw [if_neg (by simp)]
  rw [if_neg (by simp [hmo])]
  rw [if_neg hb]
  rw [if_neg (by simp [initPipeState])]
  by_cases hd : p.settings.deliveryMode = .live
  · simp [hd, pipeFlush, initPipeState]
  · simp [hd, pipeFlush, initPipeState]

/-- C7: consuming a `done` or `error` event first forces a full flush of
buffered text bypassing quotas and dedup (the buffer is dispatched as a block
delivery whatever the dedup hashes, quota counters and lifecycle map hold),
then resets all turn-scoped state to its initial value (character budget,
meta-event count, truncation flag, status/tool/usage dedup state, tool
lifecycle map, buffer); consequently identical status text delivered before
and after a turn boundary is delivered twice. -/
theorem C7_turn_boundary_reset (p : AcpPipeParams) (hs : p.shouldSendToolSummaries = true)
    (hmo : p.settings.metaMode ≠ .off) (hq : 1 ≤ p.settings.maxMetaEventsPerTurn)
    (t : String) (hb : truncateText (jsTrim t) p.settings.maxStatusChars ≠ "") :
    (∀ (st : AcpPipeState) (r : String), onEvent p st (.done r)
        = (initPipeState,
           if st.buffer = "" then [] else [⟨.block, st.buffer, none⟩]))
    ∧ (∀ (st : AcpPipeState) (msg : String) (c : Option String), onEvent p st (.error msg c)
        = (initPipeState,
           if st.buffer = "" then [] else [⟨.block, st.buffer, none⟩]))
    ∧ (runEvents p initPipeState
          [.status t none none none, .done "end_turn", .status t none none none]).2
        = [⟨.tool, p.prefixSystemMessage (truncateText (jsTrim t) p.settings.maxStatusChars),
            none⟩,
           ⟨.tool, p.prefixSystemMessage (truncateText (jsTrim t) p.settings.maxStatusChars),
            none⟩] := by
  have hdone : ∀ (st : AcpPipeState) (r : String), onEvent p st (.done r)
      = (initPipeState,
         if st.buffer = "" then [] else [⟨.block, st.buffer, none⟩]) := by
    intro st r
    by_cases hbuf : st.buffer = ""
    · simp [onEvent, pipeFlush, hbuf]
    · simp [onEvent, pipeFlush, hbuf]
  have herror : ∀ (st : AcpPipeState) (msg : String) (c : Option String),
      onEvent p st (.error msg c)
      = (initPipeState,
         if st.buffer = "" then [] else [⟨.block, st.buffer, none⟩]) := by
    intro st msg c
    by_cases hbuf : st.buffer = ""
    · simp [onEvent, pipeFlush, hbuf]
    · simp [onEvent, pipeFlush, hbuf]
  refine ⟨hdone, herror, ?_⟩
  have hfresh := onEvent_status_fresh p hs hmo hq t hb
  simp only [runEvents, hfresh, hdone]
  simp [initPipeState]

/-- Witness for C7 with the identity prefixer and the status text `"hello"`
around an `end_turn` boundary. -/
theorem C7_witness :
    (runEvents ⟨true, ⟨.live, .minimal, false, 24000, 320, 320, 64, []⟩, fun s => s, fun s => s⟩
        initPipeState
        [.status "hello" none none none, .done "end_turn", .status "hello" none none none]).2
      = [⟨.tool, "hello", none⟩, ⟨.tool, "hello", none⟩] := by
  have h := (C7_turn_boundary_reset
    ⟨true, ⟨.live, .minimal, false, 24000, 320, 320, 64, []⟩, fun s => s, fun s => s⟩
    rfl (by decide) (by decide) "hello" (by decide)).2.2
  simpa using h

lemma pipeFlush_toolLifecycle (p : AcpPipeParams) (st : AcpPipeState) (force : Bool) :
    (pipeFlush p st force).1.toolLifecycleById = st.toolLifecycleById := by
  unfold pipeFlush
  split
  · rfl
  · split
    · split
      · rfl
      · rfl
    · rfl

lemma consumeMetaQuota_toolLifecycle (p : AcpPipeParams) (st : AcpPipeState) (force : Bool) :
    (consumeMetaQuota p st force).1.toolLifecycleById = st.toolLifecycleById := by
  unfold consumeMetaQuota
  split
  · rfl
  · split
    · rfl
    · rfl

lemma emitSystemStatus_toolLifecycle (p : AcpPipeParams) (st : AcpPipeState) (text : String)
    (meta : Option AcpDeliveryMeta) (force dedupe : Bool) :
    (emitSystemStatus p st text meta force dedupe).1.toolLifecycleById
      = st.toolLifecycleById := by
  unfold emitSystemStatus
  split_ifs <;>
    simp [consumeMetaQuota_toolLifecycle, pipeFlush_toolLifecycle] <;>
    split_ifs <;>
    simp [consumeMetaQuota_toolLifecycle, pipeFlush_toolLifecycle]

lemma emitToolDeliver_toolLifecycle (p : AcpPipeParams) (stG : AcpPipeState)
    (toolSummary hash : String) (tag tid nstatus : Option String) (force : Bool) :
    (emitToolDeliver p stG toolSummary hash tag tid nstatus force).1.toolLifecycleById
      = stG.toolLifecycleById := by
  unfold emitToolDeliver
  by_cases hq : (consumeMetaQuota p stG force).2 = false
  · simp [hq, consumeMetaQuota_toolLifecycle]
  · have hq' : (consumeMetaQuota p stG force).2 = true := by simpa using hq
    by_cases hd : p.settings.deliveryMode = .live
    · simp [hq', hd, consumeMetaQuota_toolLifecycle, pipeFlush_toolLifecycle]
    · simp [hq', hd, consumeMetaQuota_toolLifecycle]

lemma pipeFlush_start_filter (p : AcpPipeParams) (st' : AcpPipeState) (force : Bool) :
    ((pipeFlush p st' force).2.filter isStartDelivery) = [] := by
  unfold pipeFlush
  split_ifs <;> simp [isStartDelivery]

lemma emitToolDeliver_start_facts (p : AcpPipeParams) (stG : AcpPipeState)
    (toolSummary hash : String) (tag tid : Option String) (status : Option String)
    (force : Bool) :
    (((emitToolDeliver p stG toolSummary hash tag tid (normalizeToolStatus status)
        force).2.filter isStartDelivery).length ≤ 1)
    ∧ (1 ≤ ((emitToolDeliver p stG toolSummary hash tag tid (normalizeToolStatus status)
        force).2.filter isStartDelivery).length → toolEventIsStart tag status = true) := by
  have hdel : ∀ ae : Option Bool, isStartDelivery ⟨.tool, toolSummary,
      some ⟨tag, tid, normalizeToolStatus status, ae⟩⟩
      = toolEventIsStart tag status := by
    intro ae
    simp [isStartDelivery, toolEventIsStart]
  unfold emitToolDeliver
  by_cases hq : (consumeMetaQuota p stG force).2 = false
  · simp [hq]
  · have hq' : (consumeMetaQuota p stG force).2 = true := by simpa using hq
    by_cases hd : p.settings.deliveryMode = .live
    · constructor
      · cases hb : toolEventIsStart tag status <;>
          simp [hq', hd, List.filter_append, pipeFlush_start_filter, List.filter, hdel, hb]
      · intro hlen
        by_contra hb
        have hbf : toolEventIsStart tag status = false := by simpa using hb
        simp [hq', hd, List.filter_append, pipeFlush_start_filter, List.filter, hdel,
          hbf] at hlen
    · constructor
      · cases hb : toolEventIsStart tag status <;>
          simp [hq', hd, List.filter, hdel, hb]
      · intro hlen
        by_contra hb
        have hbf : toolEventIsStart tag status = false := by simpa using hb
        simp [hq', hd, List.filter, hdel, hbf] at hlen

lemma lifecycleOf_congr (st1 st2 : AcpPipeState) (X : String)
    (h : st1.toolLifecycleById = st2.toolLifecycleById) :
    lifecycleOf st1 X = lifecycleOf st2 X := by
  unfold lifecycleOf
  rw [h]

lemma toolDedupGuard_none (p : AcpPipeParams) (hmm : p.settings.metaMode = .minimal)
    (st : AcpPipeState) (tag toolCallId status : Option String) (hash : String)
    (hid0 : normalizeToolCallId toolCallId = none) :
    toolDedupGuard p st tag toolCallId status hash
      = (st, !decide (st.lastToolHash = some hash)) := by
  unfold toolDedupGuard
  rw [if_neg (by simp [hmm]), hid0]

lemma toolDedupGuard_minimal_cases (p : AcpPipeParams)
    (hmm : p.settings.metaMode = .minimal) (st : AcpPipeState)
    (tag toolCallId status : Option String) (hash : String) (X : String)
    (hid : normalizeToolCallId toolCallId = some X) :
    (toolDedupGuard p st tag toolCallId status hash = (st, false))
    ∨ (¬(toolEventIsStart tag status = true ∧ (lifecycleOf st X).started = true) ∧
       toolDedupGuard p st tag toolCallId status hash
          = ({ st with toolLifecycleById := (alistSet st.toolLifecycleById X
              ⟨(lifecycleOf st X).started || toolEventIsStart tag status,
               (lifecycleOf st X).terminal || toolEventIsTerminal status, some hash⟩) },
             true)) := by
  unfold toolDedupGuard
  rw [if_neg (by simp [hmm]), hid]
  cases hg1 : toolEventIsTerminal status && (lifecycleOf st X).terminal
  · cases hg2 : toolEventIsStart tag status && (lifecycleOf st X).started
    · by_cases hg3 : (lifecycleOf st X).lastRenderedHash = some hash
      · left
        simp [hg1, hg2, hg3]
      · right
        refine ⟨?_, by simp [hg1, hg2, hg3]⟩
        rintro ⟨ha, hb⟩
        rw [ha, hb] at hg2
        cases hg2
    · left
      simp [hg1, hg2]
  · left
    simp [hg1]

lemma toolDedupGuard_terminal_blocked (p : AcpPipeParams)
    (hmm : p.settings.metaMode = .minimal) (st : AcpPipeState)
    (tag toolCallId status : Option String) (hash : String) (X : String)
    (hid : normalizeToolCallId toolCallId = some X)
    (hterm : (lifecycleOf st X).terminal = true)
    (hev : toolEventIsTerminal status = true) :
    toolDedupGuard p st tag toolCallId status hash = (st, false) := by
  unfold toolDedupGuard
  rw [if_neg (by simp [hmm]), hid]
  simp [hev, hterm]

lemma toolDedupGuard_start_blocked (p : AcpPipeParams)
    (hmm : p.settings.metaMode = .minimal) (st : AcpPipeState)
    (tag toolCallId status : Option String) (hash : String) (X : String)
    (hid : normalizeToolCallId toolCallId = some X)
    (hstarted : (lifecycleOf st X).started = true)
    (hev : toolEventIsStart tag status = true) :
    toolDedupGuard p st tag toolCallId status hash = (st, false) := by
  unfold toolDedupGuard
  rw [if_neg (by simp [hmm]), hid]
  cases hg1 : toolEventIsTerminal status && (lifecycleOf st X).terminal
  · simp [hg1, hev, hstarted]
  · simp [hg1]

lemma toolDedupGuard_hash_blocked (p : AcpPipeParams)
    (hmm : p.settings.metaMode = .minimal) (st : AcpPipeState)
    (tag toolCallId status : Option String) (hash : String) (X : String)
    (hid : normalizeToolCallId toolCallId = some X)
    (hhash : (lifecycleOf st X).lastRenderedHash = some hash) :
    toolDedupGuard p st tag toolCallId status hash = (st, false) := by
  unfold toolDedupGuard
  rw [if_neg (by simp [hmm]), hid]
  cases hg1 : toolEventIsTerminal status && (lifecycleOf st X).terminal
  · cases hg2 : toolEventIsStart tag status && (lifecycleOf st X).started
    · simp [hg1, hg2, hhash]
    · simp [hg1, hg2]
  · simp [hg1]

lemma emitToolSummary_map_eq_guard (p : AcpPipeParams) (st : AcpPipeState) (text : String)
    (tag toolCallId status title : Option String) (force : Bool)
    (h1 : ¬(¬p.shouldSendToolSummaries ∨ p.settings.metaMode = .off))
    (h2 : ¬¬isTagVisible p.settings tag) :
    (emitToolSummary p st text tag toolCallId status title force).1.toolLifecycleById
      = (toolDedupGuard p st tag toolCallId status
          (hashText (toolRenderedText p text title status))).1.toolLifecycleById := by
  unfold emitToolSummary
  rw [if_neg h1, if_neg h2]
  by_cases hb : (toolDedupGuard p st tag toolCallId status
      (hashText (toolRenderedText p text title status))).2 = true
  · simp [hb, emitToolDeliver_toolLifecycle]
  · simp [hb]

lemma toolDedupGuard_terminal_mono (p : AcpPipeParams)
    (hmm : p.settings.metaMode = .minimal) (st : AcpPipeState)
    (tag toolCallId status : Option String) (hash : String) (X : String)
    (hterm : (lifecycleOf st X).terminal = true) :
    (lifecycleOf (toolDedupGuard p st tag toolCallId status hash).1 X).terminal = true := by
  cases hid0 : normalizeToolCallId toolCallId with
  | none =>
    rw [toolDedupGuard_none p hmm st tag toolCallId status hash hid0]
    exact hterm
  | some id =>
    rcases toolDedupGuard_minimal_cases p hmm st tag toolCallId status hash id hid0 with
      h | ⟨hns, h⟩
    · rw [h]
      exact hterm
    · rw [h]
      by_cases hX : id = X
      · subst hX
        unfold lifecycleOf at hterm ⊢
        simp only []
        rw [alistGet_set_self]
        simp only [Option.getD_some, Bool.or_eq_true]
        exact Or.inl hterm
      · unfold lifecycleOf
        simp only []
        rw [alistGet_set_other st.toolLifecycleById id X _ (fun he => hX he.symm)]
        exact hterm

lemma emitToolSummary_terminal_mono (p : AcpPipeParams)
    (hmm : p.settings.metaMode = .minimal) (st : AcpPipeState) (text : String)
    (tag toolCallId status title : Option String) (force : Bool) (X : String)
    (hterm : (lifecycleOf st X).terminal = true) :
    (lifecycleOf (emitToolSummary p st text tag toolCallId status title force).1 X).terminal
      = true := by
  unfold emitToolSummary
  dsimp only
  split_ifs with h1 h2 h3 <;>
    first
      | exact hterm
      | (simpa using toolDedupGuard_terminal_mono p hmm st tag toolCallId status
          (hashText (toolRenderedText p text title status)) X hterm)
      | (rw [lifecycleOf_congr _ _ X (emitToolDeliver_toolLifecycle p
            (toolDedupGuard p st tag toolCallId status
              (hashText (toolRenderedText p text title status))).1
            (toolRenderedText p text title status)
            (hashText (toolRenderedText p text title status)) tag
            (normalizeToolCallId toolCallId) (normalizeToolStatus status) force)]
         exact toolDedupGuard_terminal_mono p hmm st tag toolCallId status
           (hashText (toolRenderedText p text title status)) X hterm)

lemma emitToolSummary_terminal_blocked (p : AcpPipeParams)
    (hmm : p.settings.metaMode = .minimal) (st : AcpPipeState) (text : String)
    (tag toolCallId status title : Option String) (force : Bool) (X : String)
    (hid : normalizeToolCallId toolCallId = some X)
    (hterm : (lifecycleOf st X).terminal = true)
    (hev : toolEventIsTerminal status = true) :
    emitToolSummary p st text tag toolCallId status title force = (st, []) := by
  unfold emitToolSummary
  dsimp only
  rw [toolDedupGuard_terminal_blocked p hmm st tag toolCallId status
    (hashText (toolRenderedText p text title status)) X hid hterm hev]
  simp

lemma emitToolSummary_start_blocked (p : AcpPipeParams)
    (hmm : p.settings.metaMode = .minimal) (st : AcpPipeState) (text : String)
    (tag toolCallId status title : Option String) (force : Bool) (X : String)
    (hid : normalizeToolCallId toolCallId = some X)
    (hstarted : (lifecycleOf st X).started = true)
    (hev : toolEventIsStart tag status = true) :
    emitToolSummary p st text tag toolCallId status title force = (st, []) := by
  unfold emitToolSummary
  dsimp only
  rw [toolDedupGuard_start_blocked p hmm st tag toolCallId status
    (hashText (toolRenderedText p text title status)) X hid hstarted hev]
  simp

lemma emitToolSummary_hash_blocked (p : AcpPipeParams)
    (hmm : p.settings.metaMode = .minimal) (st : AcpPipeState) (text : String)
    (tag toolCallId status title : Option String) (force : Bool) (X : String)
    (hid : normalizeToolCallId toolCallId = some X)
    (hhash : (lifecycleOf st X).lastRenderedHash
      = some (hashText (toolRenderedText p text title status))) :
    emitToolSummary p st text tag toolCallId status title force = (st, []) := by
  unfold emitToolSummary
  dsimp only
  rw [toolDedupGuard_hash_blocked p hmm st tag toolCallId status
    (hashText (toolRenderedText p text title status)) X hid hhash]
  simp

lemma emitToolSummary_start_step (p : AcpPipeParams)
    (hmm : p.settings.metaMode = .minimal) (st : AcpPipeState) (text : String)
    (tag toolCallId status title : Option String) (force : Bool) (X : String)
    (hid : normalizeToolCallId toolCallId = some X) :
    ((lifecycleOf st X).started = true →
      (lifecycleOf (emitToolSummary p st text tag toolCallId status title force).1 X).started
        = true)
    ∧ (((emitToolSummary p st text tag toolCallId status title force).2.filter
        isStartDelivery).length ≤ 1)
    ∧ (1 ≤ ((emitToolSummary p st text tag toolCallId status title force).2.filter
          isStartDelivery).length →
        (lifecycleOf st X).started = false ∧
        (lifecycleOf (emitToolSummary p st text tag toolCallId status title force).1 X).started
          = true) := by
  rcases toolDedupGuard_minimal_cases p hmm st tag toolCallId status
      (hashText (toolRenderedText p text title status)) X hid with hguard | ⟨hns, hguard⟩
  · have hres : emitToolSummary p st text tag toolCallId status title force = (st, []) := by
      unfold emitToolSummary
      dsimp only
      rw [hguard]
      simp
    rw [hres]
    exact ⟨fun h => h, by simp, by intro h; simp at h⟩
  · have hres : emitToolSummary p st text tag toolCallId status title force = (st, [])
        ∨ emitToolSummary p st text tag toolCallId status title force
          = emitToolDeliver p
              ({ st with toolLifecycleById := (alistSet st.toolLifecycleById X
                  ⟨(lifecycleOf st X).started || toolEventIsStart tag status,
                   (lifecycleOf st X).terminal || toolEventIsTerminal status,
                   some (hashText (toolRenderedText p text title status))⟩) })
              (toolRenderedText p text title status)
              (hashText (toolRenderedText p text title status)) tag
              (normalizeToolCallId toolCallId) (normalizeToolStatus status) force := by
      unfold emitToolSummary
      dsimp only
      rw [hguard]
      split_ifs with h1 h2 h3 <;>
        first
          | (left; rfl)
          | (right; rfl)
          | (exfalso; simp_all)
    have hGX : lifecycleOf
        ({ st with toolLifecycleById := (alistSet st.toolLifecycleById X
            ⟨(lifecycleOf st X).started || toolEventIsStart tag status,
             (lifecycleOf st X).terminal || toolEventIsTerminal status,
             some (hashText (toolRenderedText p text title status))⟩) }) X
        = ⟨(lifecycleOf st X).started || toolEventIsStart tag status,
           (lifecycleOf st X).terminal || toolEventIsTerminal status,
           some (hashText (toolRenderedText p text title status))⟩ := by
      unfold lifecycleOf
      simp only []
      rw [alistGet_set_self]
      rfl
    rcases hres with hres | hres
    · rw [hres]
      exact ⟨fun h => h, by simp, by intro h; simp at h⟩
    · rw [hres]
      have hmap := emitToolDeliver_toolLifecycle p
        ({ st with toolLifecycleById := (alistSet st.toolLifecycleById X
            ⟨(lifecycleOf st X).started || toolEventIsStart tag status,
             (lifecycleOf st X).terminal || toolEventIsTerminal status,
             some (hashText (toolRenderedText p text title status))⟩) })
        (toolRenderedText p text title status)
        (hashText (toolRenderedText p text title status)) tag
        (normalizeToolCallId toolCallId) (normalizeToolStatus status) force
      have hlife := lifecycleOf_congr _ _ X hmap
      have hfacts := emitToolDeliver_start_facts p
        ({ st with toolLifecycleById := (alistSet st.toolLifecycleById X
            ⟨(lifecycleOf st X).started || toolEventIsStart tag status,
             (lifecycleOf st X).terminal || toolEventIsTerminal status,
             some (hashText (toolRenderedText p text title status))⟩) })
        (toolRenderedText p text title status)
        (hashText (toolRenderedText p text title status)) tag
        (normalizeToolCallId toolCallId) status force
      refine ⟨?_, hfacts.1, ?_⟩
      · intro h
        rw [hlife, hGX]
        simp [h]
      · intro hlen
        have hstart := hfacts.2 hlen
        constructor
        · by_contra hstF
          have hstT : (lifecycleOf st X).started = true := by
            simpa using hstF
          exact hns ⟨hstart, hstT⟩
        · rw [hlife, hGX]
          simp [hstart]

lemma runEvents_cons (p : AcpPipeParams) (st : AcpPipeState) (e : AcpRuntimeEvent)
    (rest : List AcpRuntimeEvent) :
    runEvents p st (e :: rest)
      = ((runEvents p (onEvent p st e).1 rest).1,
         (onEvent p st e).2 ++ (runEvents p (onEvent p st e).1 rest).2) := rfl

lemma emitTruncationNotice_toolLifecycle (p : AcpPipeParams) (st : AcpPipeState) :
    (emitTruncationNotice p st).1.toolLifecycleById = st.toolLifecycleById := by
  unfold emitTruncationNotice
  split_ifs
  · rfl
  · rw [emitSystemStatus_toolLifecycle]

lemma onEvent_textDelta_toolLifecycle (p : AcpPipeParams) (st : AcpPipeState)
    (text : String) (stream : Option AcpStream) (tag : Option String) :
    (onEvent p st (.text_delta text stream tag)).1.toolLifecycleById
      = st.toolLifecycleById := by
  unfold onEvent
  dsimp only
  split_ifs <;> simp [emitTruncationNotice_toolLifecycle]

lemma onEvent_status_toolLifecycle (p : AcpPipeParams) (st : AcpPipeState)
    (text : String) (tag : Option String) (used size : Option Int) :
    (onEvent p st (.status text tag used size)).1.toolLifecycleById
      = st.toolLifecycleById := by
  unfold onEvent
  dsimp only
  split_ifs <;> simp [emitSystemStatus_toolLifecycle]

lemma runEvents_terminal_mono (p : AcpPipeParams) (hmm : p.settings.metaMode = .minimal)
    (X : String) :
    ∀ (evs : List AcpRuntimeEvent), evs.all isTurnEvent = true →
      ∀ (st : AcpPipeState), (lifecycleOf st X).terminal = true →
        (lifecycleOf (runEvents p st evs).1 X).terminal = true := by
  intro evs
  induction evs with
  | nil =>
    intro _ st h
    simpa [runEvents] using h
  | cons e rest ih =>
    intro hall st h
    have hparts : isTurnEvent e = true ∧ rest.all isTurnEvent = true := by
      simpa [List.all_cons] using hall
    rw [runEvents_cons]
    simp only []
    apply ih hparts.2
    cases e with
    | tool_call text tag tid status title =>
      exact emitToolSummary_terminal_mono p hmm st text tag tid status title false X h
    | text_delta t s tg =>
      rw [lifecycleOf_congr _ _ X (onEvent_textDelta_toolLifecycle p st t s tg)]
      exact h
    | status t tg u sz =>
      rw [lifecycleOf_congr _ _ X (onEvent_status_toolLifecycle p st t tg u sz)]
      exact h
    | done r => cases hparts.1
    | error msg c => cases hparts.1

lemma runEvents_start_once (p : AcpPipeParams) (hmm : p.settings.metaMode = .minimal)
    (X : String) :
    ∀ (evs : List AcpRuntimeEvent), evs.all (isToolCallFor X) = true →
      ∀ (st : AcpPipeState),
        ((runEvents p st evs).2.filter isStartDelivery).length
          ≤ (if (lifecycleOf st X).started = true then 0 else 1) := by
  intro evs
  induction evs with
  | nil =>
    intro _ st
    simp [runEvents]
  | cons e rest ih =>
    intro hall st
    have hparts : isToolCallFor X e = true ∧ rest.all (isToolCallFor X) = true := by
      simpa [List.all_cons] using hall
    cases e with
    | text_delta t s tg => cases hparts.1
    | status t tg u sz => cases hparts.1
    | done r => cases hparts.1
    | error msg c => cases hparts.1
    | tool_call text tag tid status title =>
      have hid : normalizeToolCallId tid = some X := by
        have := hparts.1
        simpa [isToolCallFor] using this
      have hstep := emitToolSummary_start_step p hmm st text tag tid status title false X hid
      have hon : onEvent p st (.tool_call text tag tid status title)
          = emitToolSummary p st text tag tid status title false := rfl
      have hih := ih hparts.2 (onEvent p st (.tool_call text tag tid status title)).1
      rw [runEvents_cons]
      simp only [List.filter_append, List.length_append]
      rw [hon] at hih ⊢
      set r := emitToolSummary p st text tag tid status title false with hr
      by_cases hst : (lifecycleOf st X).started = true
      · have hl1 : (r.2.filter isStartDelivery).length = 0 := by
          by_contra hne
          have hge : 1 ≤ (r.2.filter isStartDelivery).length := by omega
          exact absurd hst (by simpa using (hstep.2.2 hge).1)
        have hr1 : (lifecycleOf r.1 X).started = true := hstep.1 hst
        have hrest : ((runEvents p r.1 rest).2.filter isStartDelivery).length ≤ 0 := by
          rw [if_pos hr1] at hih
          exact hih
        rw [if_pos hst]
        omega
      · have hstF : ¬((lifecycleOf st X).started = true) := hst
        have hl1 : (r.2.filter isStartDelivery).length ≤ 1 := hstep.2.1
        by_cases hone : 1 ≤ (r.2.filter isStartDelivery).length
        · have hr1 : (lifecycleOf r.1 X).started = true := (hstep.2.2 hone).2
          have hrest : ((runEvents p r.1 rest).2.filter isStartDelivery).length ≤ 0 := by
            rw [if_pos hr1] at hih
            exact hih
          rw [if_neg hstF]
          omega
        · have hl0 : (r.2.filter isStartDelivery).length = 0 := by omega
          have hle1 : ((runEvents p r.1 rest).2.filter isStartDelivery).length ≤ 1 := by
            refine le_trans hih ?_
            split <;> omega
          rw [if_neg hstF]
          omega

/-- C3 counterexample: in minimal meta mode, after the `completed` (terminal)
update for tool-call id `"X"` is delivered, two further updates for `"X"` with
distinct non-start, non-terminal statuses are each delivered — three tool
deliveries in total, i.e. two additional deliveries after the terminal one,
where the claim allows at most one. -/
theorem C3_counterexample :
    ((runEvents ⟨true, ⟨.live, .minimal, false, 24000, 320, 320, 64, []⟩,
        fun s => s, fun s => s⟩ initPipeState
        [.tool_call "exec (completed)" (some "tool_call_update") (some "X")
            (some "completed") (some "exec"),
         .tool_call "exec (s1)" (some "tool_call_update") (some "X") (some "s1") (some "exec"),
         .tool_call "exec (s2)" (some "tool_call_update") (some "X") (some "s2")
            (some "exec")]).2.filter (fun d => d.kind == .tool)).length = 3 := by
  decide

/-- C3 (amended): in minimal meta mode, once tool-call id `X` is terminal —
(1) a further terminal-status update for `X` is never delivered and leaves the
state untouched; (2) once `X` is started, a further start/in-progress update
is never delivered; (3) an update rendering identically to `X`'s last
rendered text is never delivered; (4) `X`'s terminal state is never reopened
across any events of the same turn; and (5) over any sequence of tool-call
events for `X`, at most one start delivery occurs (none once started).
A sequence of distinct non-start, non-terminal updates for `X` may however
yield several additional deliveries, so "at most one additional delivery"
does not hold. -/
theorem C3_minimal_tool_dedup (p : AcpPipeParams)
    (hmm : p.settings.metaMode = .minimal) (X : String) :
    (∀ (st : AcpPipeState) (text : String) (tag toolCallId status title : Option String),
      normalizeToolCallId toolCallId = some X →
      (lifecycleOf st X).terminal = true → toolEventIsTerminal status = true →
      emitToolSummary p st text tag toolCallId status title false = (st, []))
    ∧ (∀ (st : AcpPipeState) (text : String) (tag toolCallId status title : Option String),
      normalizeToolCallId toolCallId = some X →
      (lifecycleOf st X).started = true → toolEventIsStart tag status = true →
      emitToolSummary p st text tag toolCallId status title false = (st, []))
    ∧ (∀ (st : AcpPipeState) (text : String) (tag toolCallId status title : Option String),
      normalizeToolCallId toolCallId = some X →
      (lifecycleOf st X).lastRenderedHash
        = some (hashText (toolRenderedText p text title status)) →
      emitToolSummary p st text tag toolCallId status title false = (st, []))
    ∧ (∀ (st : AcpPipeState) (evs : List AcpRuntimeEvent),
      evs.all isTurnEvent = true → (lifecycleOf st X).terminal = true →
      (lifecycleOf (runEvents p st evs).1 X).terminal = true)
    ∧ (∀ (st : AcpPipeState) (evs : List AcpRuntimeEvent),
      evs.all (isToolCallFor X) = true →
      ((runEvents p st evs).2.filter isStartDelivery).length
        ≤ (if (lifecycleOf st X).started = true then 0 else 1)) := by
  refine ⟨?_, ?_, ?_, ?_, ?_⟩
  · intro st text tag toolCallId status title hid hterm hev
    exact emitToolSummary_terminal_blocked p hmm st text tag toolCallId status title false X
      hid hterm hev
  · intro st text tag toolCallId status title hid hstarted hev
    exact emitToolSummary_start_blocked p hmm st text tag toolCallId status title false X
      hid hstarted hev
  · intro st text tag toolCallId status title hid hhash
    exact emitToolSummary_hash_blocked p hmm st text tag toolCallId status title false X
      hid hhash
  · intro st evs hall hterm
    exact runEvents_terminal_mono p hmm X evs hall st hterm
  · intro st evs hall
    exact runEvents_start_once p hmm X evs hall st

/-- Witness for C3 (amended): with id `"X"` already terminal, a repeated
`completed` update is dropped with the state untouched, and a sequence of two
further updates for `"X"` yields no start delivery. -/
theorem C3_witness :
    emitToolSummary ⟨true, ⟨.live, .minimal, false, 24000, 320, 320, 64, []⟩,
        fun s => s, fun s => s⟩
        ⟨0, 1, false, none, some "h", none, [("X", ⟨false, true, some "h"⟩)], ""⟩
        "exec (completed)" (some "tool_call_update") (some "X") (some "completed")
        (some "exec") false
      = (⟨0, 1, false, none, some "h", none, [("X", ⟨false, true, some "h"⟩)], ""⟩, [])
    ∧ ((runEvents ⟨true, ⟨.live, .minimal, false, 24000, 320, 320, 64, []⟩,
        fun s => s, fun s => s⟩
        ⟨0, 1, false, none, some "h", none, [("X", ⟨true, true, some "h"⟩)], ""⟩
        [.tool_call "exec (s1)" (some "tool_call_update") (some "X") (some "s1") (some "exec"),
         .tool_call "exec (s2)" (some "tool_call_update") (some "X") (some "s2")
            (some "exec")]).2.filter isStartDelivery).length ≤ 0 := by
  have h := C3_minimal_tool_dedup
    ⟨true, ⟨.live, .minimal, false, 24000, 320, 320, 64, []⟩, fun s => s, fun s => s⟩
    rfl "X"
  constructor
  · exact h.1 ⟨0, 1, false, none, some "h", none, [("X", ⟨false, true, some "h"⟩)], ""⟩
      "exec (completed)" (some "tool_call_update") (some "X") (some "completed")
      (some "exec") (by decide) (by decide) (by decide)
  · have h5 := h.2.2.2.2
      ⟨0, 1, false, none, some "h", none, [("X", ⟨true, true, some "h"⟩)], ""⟩
      [.tool_call "exec (s1)" (some "tool_call_update") (some "X") (some "s1") (some "exec"),
       .tool_call "exec (s2)" (some "tool_call_update") (some "X") (some "s2") (some "exec")]
      (by decide)
    have hcond : (lifecycleOf
        ⟨0, 1, false, none, some "h", none, [("X", ⟨true, true, some "h"⟩)], ""⟩
        "X").started = true := by decide
    rw [if_pos hcond] at h5
    exact h5

lemma jsAppend_empty_left (s : String) : "" ++ s = s :=
  String.ext (by rw [jsAppend_data]; simp)

lemma jsAppend_empty_right (s : String) : s ++ "" = s :=
  String.ext (by rw [jsAppend_data]; simp)

lemma truncateText_notice (p : AcpPipeParams) (hms : 16 ≤ p.settings.maxStatusChars) :
    truncateText (jsTrim "output truncated") p.settings.maxStatusChars
      = "output truncated" := by
  have htr : jsTrim "output truncated" = "output truncated" := by decide
  have hlen : jsLength "output truncated" = 16 := by decide
  rw [htr]
  unfold truncateText
  rw [if_pos (by omega)]

lemma pipeFlush_forced_spec (p : AcpPipeParams) (st : AcpPipeState) :
    (pipeFlush p st true).1.emittedTurnChars = st.emittedTurnChars
    ∧ (pipeFlush p st true).1.truncationNoticeEmitted = st.truncationNoticeEmitted
    ∧ (pipeFlush p st true).2.filter (fun d => d.kind == AcpDeliveryKind.tool) = []
    ∧ blockConcat (pipeFlush p st true).2 ++ (pipeFlush p st true).1.buffer = st.buffer := by
  unfold pipeFlush
  split_ifs <;>
    simp_all [blockConcat, jsAppend_empty_left, jsAppend_empty_right]

lemma emitTruncationNotice_spec (p : AcpPipeParams) (hs : p.shouldSendToolSummaries = true)
    (hms : 16 ≤ p.settings.maxStatusChars) (st : AcpPipeState)
    (hfl : st.truncationNoticeEmitted = false) :
    (emitTruncationNotice p st).1.emittedTurnChars = st.emittedTurnChars
    ∧ (emitTruncationNotice p st).1.truncationNoticeEmitted = true
    ∧ (emitTruncationNotice p st).2.filter (fun d => d.kind == AcpDeliveryKind.tool)
        = [truncDelivery p]
    ∧ blockConcat (emitTruncationNotice p st).2 ++ (emitTruncationNotice p st).1.buffer
        = st.buffer := by
  unfold emitTruncationNotice
  rw [if_neg (by simp [hfl])]
  unfold emitSystemStatus
  rw [if_neg (by simp [hs])]
  rw [if_neg (by simp)]
  dsimp only
  rw [truncateText_notice p hms]
  rw [if_neg (by decide)]
  rw [if_neg (by simp)]
  have hq : consumeMetaQuota p { st with truncationNoticeEmitted := true } true
      = ({ st with truncationNoticeEmitted := true }, true) := rfl
  rw [hq]
  rw [if_neg (by simp)]
  by_cases hd : p.settings.deliveryMode = AcpDeliveryMode.live
  · rw [if_pos hd]
    have hp := pipeFlush_forced_spec p { st with truncationNoticeEmitted := true }
    refine ⟨hp.1, hp.2.1, ?_, ?_⟩
    · rw [List.filter_append, hp.2.2.1]
      simp [truncDelivery]
    · have hb : blockConcat
          ((pipeFlush p { st with truncationNoticeEmitted := true } true).2
            ++ [⟨AcpDeliveryKind.tool, p.prefixSystemMessage "output truncated",
                some ⟨some "session_info_update", none, none, none⟩⟩])
          = blockConcat (pipeFlush p { st with truncationNoticeEmitted := true } true).2 := by
        unfold blockConcat
        rw [List.filter_append]
        simp
      rw [hb]
      exact hp.2.2.2
  · rw [if_neg hd]
    refine ⟨rfl, rfl, ?_, ?_⟩
    · simp [truncDelivery]
    · simp [blockConcat, jsAppend_empty_left]

lemma textDelta_step (p : AcpPipeParams) (hs : p.shouldSendToolSummaries = true)
    (hms : 16 ≤ p.settings.maxStatusChars) (st : AcpPipeState) (t : String)
    (hinv1 : st.emittedTurnChars ≤ p.settings.maxTurnChars)
    (hinv2 : st.truncationNoticeEmitted = true →
      st.emittedTurnChars = p.settings.maxTurnChars) :
    (onEvent p st (.text_delta t (some .output) none)).1.emittedTurnChars
        = min p.settings.maxTurnChars (st.emittedTurnChars + jsLength t)
    ∧ (onEvent p st (.text_delta t (some .output) none)).1.truncationNoticeEmitted
        = (st.truncationNoticeEmitted
            || decide (p.settings.maxTurnChars < st.emittedTurnChars + jsLength t))
    ∧ (onEvent p st (.text_delta t (some .output) none)).2.filter
          (fun d => d.kind == AcpDeliveryKind.tool)
        = (if st.truncationNoticeEmitted = false
              ∧ p.settings.maxTurnChars < st.emittedTurnChars + jsLength t
           then [truncDelivery p] else [])
    ∧ blockConcat (onEvent p st (.text_delta t (some .output) none)).2
          ++ (onEvent p st (.text_delta t (some .output) none)).1.buffer
        = st.buffer
          ++ jsTake t (min (p.settings.maxTurnChars - st.emittedTurnChars) (jsLength t)) := by
  unfold onEvent
  dsimp only
  rw [if_neg (by simp)]
  rw [if_neg (by simp [isTagVisible])]
  by_cases ht : t = ""
  · rw [if_pos ht]
    subst ht
    have hlen : jsLength "" = 0 := rfl
    have hj : jsTake "" (min (p.settings.maxTurnChars - st.emittedTurnChars) 0) = "" :=
      String.ext (by simp [jsTake])
    refine ⟨?_, ?_, ?_, ?_⟩
    · dsimp only
      rw [hlen]
      omega
    · dsimp only
      rw [hlen]
      have hd : decide (p.settings.maxTurnChars < st.emittedTurnChars + 0) = false :=
        decide_eq_false (by omega)
      rw [hd, Bool.or_false]
    · dsimp only
      rw [if_neg (by rintro ⟨_, h⟩; rw [hlen] at h; omega)]
      rfl
    · dsimp only
      rw [hlen, hj, jsAppend_empty_right]
      have hbc : blockConcat [] = "" := rfl
      rw [hbc, jsAppend_empty_left]
  · rw [if_neg ht]
    have hlen0 : jsLength t ≠ 0 := jsLength_ne_zero_of_ne_empty t ht
    by_cases hfull : st.emittedTurnChars ≥ p.settings.maxTurnChars
    · rw [if_pos hfull]
      have heq : st.emittedTurnChars = p.settings.maxTurnChars := by omega
      cases hfl : st.truncationNoticeEmitted with
      | true =>
        have hr : emitTruncationNotice p st = (st, []) := by
          unfold emitTruncationNotice
          rw [if_pos (by simp [hfl])]
        rw [hr]
        have hj : jsTake t (min (p.settings.maxTurnChars - st.emittedTurnChars)
            (jsLength t)) = "" := by
          have hm0 : min (p.settings.maxTurnChars - st.emittedTurnChars)
              (jsLength t) = 0 := by omega
          rw [hm0]
          exact String.ext (by simp [jsTake])
        refine ⟨?_, ?_, ?_, ?_⟩
        · dsimp only
          omega
        · dsimp only
          rw [hfl, Bool.true_or]
        · dsimp only
          rw [if_neg (by simp [hfl])]
          rfl
        · dsimp only
          rw [hj, jsAppend_empty_right]
          have hbc : blockConcat [] = "" := rfl
          rw [hbc, jsAppend_empty_left]
      | false =>
        have hsp := emitTruncationNotice_spec p hs hms st hfl
        refine ⟨?_, ?_, ?_, ?_⟩
        · rw [hsp.1]; omega
        · rw [hsp.2.1]
          rw [Bool.false_or,
            (decide_eq_true (by omega) :
              decide (p.settings.maxTurnChars < st.emittedTurnChars + jsLength t) = true)]
        · rw [hsp.2.2.1, if_pos ⟨rfl, by omega⟩]
        · have hj : jsTake t (min (p.settings.maxTurnChars - st.emittedTurnChars)
              (jsLength t)) = "" := by
            have : min (p.settings.maxTurnChars - st.emittedTurnChars) (jsLength t) = 0 := by
              omega
            rw [this]
            exact String.ext (by simp [jsTake])
          rw [hj, jsAppend_empty_right, hsp.2.2.2]
    · rw [if_neg hfull]
      have hfl : st.truncationNoticeEmitted = false := by
        cases h : st.truncationNoticeEmitted with
        | false => rfl
        | true => exact absurd (hinv2 h) (by omega)
      by_cases hcross : p.settings.maxTurnChars - st.emittedTurnChars < jsLength t
      · rw [if_pos hcross]
        have hacc : jsLength (jsTake t (p.settings.maxTurnChars - st.emittedTurnChars))
            = p.settings.maxTurnChars - st.emittedTurnChars := by
          rw [jsLength_take]; omega
        rw [if_pos (show 0 < jsLength
          (jsTake t (p.settings.maxTurnChars - st.emittedTurnChars)) by omega)]
        rw [if_pos (show jsLength
          (jsTake t (p.settings.maxTurnChars - st.emittedTurnChars)) < jsLength t by omega)]
        have hsp := emitTruncationNotice_spec p hs hms
          { st with
              buffer := st.buffer ++ jsTake t (p.settings.maxTurnChars - st.emittedTurnChars),
              emittedTurnChars := st.emittedTurnChars
                + jsLength (jsTake t (p.settings.maxTurnChars - st.emittedTurnChars)) }
          (by exact hfl)
        refine ⟨?_, ?_, ?_, ?_⟩
        · rw [hsp.1]; dsimp only; omega
        · rw [hsp.2.1]
          rw [hfl, Bool.false_or,
            (decide_eq_true (by omega) :
              decide (p.settings.maxTurnChars < st.emittedTurnChars + jsLength t) = true)]
        · rw [hsp.2.2.1, if_pos ⟨hfl, by omega⟩]
        · rw [hsp.2.2.2]
          dsimp only
          have hmin : min (p.settings.maxTurnChars - st.emittedTurnChars) (jsLength t)
              = p.settings.maxTurnChars - st.emittedTurnChars := by omega
          rw [hmin]
      · rw [if_neg hcross]
        rw [if_pos (show 0 < jsLength t by omega)]
        rw [if_neg (show ¬jsLength t < jsLength t by omega)]
        refine ⟨?_, ?_, ?_, ?_⟩
        · dsimp only; omega
        · dsimp only
          rw [(decide_eq_false (by omega) :
              decide (p.settings.maxTurnChars < st.emittedTurnChars + jsLength t) = false),
            Bool.or_false]
        · rw [if_neg (by rintro ⟨_, h⟩; omega)]
          rfl
        · dsimp only
          have hmin : min (p.settings.maxTurnChars - st.emittedTurnChars) (jsLength t)
              = jsLength t := by omega
          have hbc : blockConcat [] = "" := rfl
          rw [hmin, jsTake_full, hbc, jsAppend_empty_left]

lemma runEvents_textDelta (p : AcpPipeParams) (hs : p.shouldSendToolSummaries = true)
    (hms : 16 ≤ p.settings.maxStatusChars) :
    ∀ (evs : List AcpRuntimeEvent), evs.all isPlainOutputDelta = true →
    ∀ st : AcpPipeState, st.emittedTurnChars ≤ p.settings.maxTurnChars →
    (st.truncationNoticeEmitted = true →
      st.emittedTurnChars = p.settings.maxTurnChars) →
    (runEvents p st evs).1.emittedTurnChars
        = min p.settings.maxTurnChars (st.emittedTurnChars + totalTextLen evs)
    ∧ (runEvents p st evs).1.truncationNoticeEmitted
        = (st.truncationNoticeEmitted
            || decide (p.settings.maxTurnChars < st.emittedTurnChars + totalTextLen evs))
    ∧ (runEvents p st evs).2.filter (fun d => d.kind == AcpDeliveryKind.tool)
        = (if st.truncationNoticeEmitted = false
              ∧ p.settings.maxTurnChars < st.emittedTurnChars + totalTextLen evs
           then [truncDelivery p] else []) := by
  intro evs
  induction evs with
  | nil =>
    intro _ st hinv1 hinv2
    refine ⟨?_, ?_, ?_⟩
    · show st.emittedTurnChars = min p.settings.maxTurnChars (st.emittedTurnChars + 0)
      omega
    · show st.truncationNoticeEmitted
        = (st.truncationNoticeEmitted
            || decide (p.settings.maxTurnChars < st.emittedTurnChars + 0))
      rw [(decide_eq_false (by omega) :
          decide (p.settings.maxTurnChars < st.emittedTurnChars + 0) = false),
        Bool.or_false]
    · show List.filter (fun d => d.kind == AcpDeliveryKind.tool) []
        = (if st.truncationNoticeEmitted = false
              ∧ p.settings.maxTurnChars < st.emittedTurnChars + 0
           then [truncDelivery p] else [])
      rw [if_neg (by rintro ⟨_, h⟩; omega)]
      rfl
  | cons e rest ih =>
    intro hall st hinv1 hinv2
    have he : isPlainOutputDelta e = true := by
      have := List.all_eq_true.mp hall
      exact this e (List.mem_cons_self e rest)
    have hrest : rest.all isPlainOutputDelta = true := by
      rw [List.all_eq_true] at hall ⊢
      intro x hx
      exact hall x (List.mem_cons_of_mem e hx)
    match e, he with
    | .text_delta t (some .output) none, _ =>
      have hstep := textDelta_step p hs hms st t hinv1 hinv2
      have hinv1' : (onEvent p st (.text_delta t (some .output) none)).1.emittedTurnChars
          ≤ p.settings.maxTurnChars := by
        rw [hstep.1]; omega
      have hinv2' : (onEvent p st (.text_delta t (some .output) none)).1.truncationNoticeEmitted
            = true →
          (onEvent p st (.text_delta t (some .output) none)).1.emittedTurnChars
            = p.settings.maxTurnChars := by
        intro hflag
        rw [hstep.2.1] at hflag
        rw [hstep.1]
        rcases Bool.or_eq_true_iff.mp hflag with h | h
        · have := hinv2 h
          omega
        · have := of_decide_eq_true h
          omega
      have hih := ih hrest (onEvent p st (.text_delta t (some .output) none)).1 hinv1' hinv2'
      have htot : totalTextLen (AcpRuntimeEvent.text_delta t (some .output) none :: rest)
          = jsLength t + totalTextLen rest := rfl
      rw [runEvents_cons]
      refine ⟨?_, ?_, ?_⟩
      · show (runEvents p (onEvent p st (.text_delta t (some .output) none)).1
            rest).1.emittedTurnChars = _
        rw [hih.1, hstep.1, htot]
        omega
      · show (runEvents p (onEvent p st (.text_delta t (some .output) none)).1
            rest).1.truncationNoticeEmitted = _
        rw [hih.2.1, hstep.2.1, hstep.1, htot]
        cases hf : st.truncationNoticeEmitted with
        | true => rw [Bool.true_or, Bool.true_or, Bool.true_or]
        | false =>
          rw [Bool.false_or, Bool.false_or]
          by_cases hc1 : p.settings.maxTurnChars < st.emittedTurnChars + jsLength t
          · rw [(decide_eq_true hc1 : decide (p.settings.maxTurnChars
              < st.emittedTurnChars + jsLength t) = true), Bool.true_or]
            exact (decide_eq_true (by omega)).symm
          · rw [(decide_eq_false hc1 : decide (p.settings.maxTurnChars
              < st.emittedTurnChars + jsLength t) = false), Bool.false_or]
            have hmin : min p.settings.maxTurnChars (st.emittedTurnChars + jsLength t)
                = st.emittedTurnChars + jsLength t := by omega
            rw [hmin, decide_eq_decide]
            omega
      · rw [List.filter_append, hih.2.2, hstep.2.2.1, hstep.2.1, hstep.1, htot]
        cases hf : st.truncationNoticeEmitted with
        | true =>
          rw [if_neg (by rintro ⟨h, _⟩; exact Bool.noConfusion h),
            if_neg (by rintro ⟨h, _⟩; rw [Bool.true_or] at h; exact Bool.noConfusion h),
            if_neg (by rintro ⟨h, _⟩; exact Bool.noConfusion h)]
          rfl
        | false =>
          rw [Bool.false_or]
          by_cases hc1 : p.settings.maxTurnChars < st.emittedTurnChars + jsLength t
          · rw [if_pos ⟨rfl, hc1⟩,
              if_neg (by
                rintro ⟨h, _⟩
                rw [(decide_eq_true hc1 :
                  decide (p.settings.maxTurnChars
                    < st.emittedTurnChars + jsLength t) = true)] at h
                exact Bool.noConfusion h),
              if_pos (show (false = false)
                ∧ p.settings.maxTurnChars
                  < st.emittedTurnChars + (jsLength t + totalTextLen rest)
                from ⟨rfl, by omega⟩)]
            rfl
          · rw [if_neg (by rintro ⟨_, h⟩; exact hc1 h)]
            rw [(decide_eq_false hc1 :
              decide (p.settings.maxTurnChars < st.emittedTurnChars + jsLength t) = false)]
            have hmin : min p.settings.maxTurnChars (st.emittedTurnChars + jsLength t)
                = st.emittedTurnChars + jsLength t := by omega
            rw [hmin]
            by_cases hc2 : p.settings.maxTurnChars
                < st.emittedTurnChars + jsLength t + totalTextLen rest
            · rw [if_pos (show (false = false)
                  ∧ p.settings.maxTurnChars
                    < st.emittedTurnChars + jsLength t + totalTextLen rest
                  from ⟨rfl, by omega⟩),
                if_pos (show (false = false)
                  ∧ p.settings.maxTurnChars
                    < st.emittedTurnChars + (jsLength t + totalTextLen rest)
                  from ⟨rfl, by omega⟩)]
              rfl
            · rw [if_neg (by rintro ⟨_, h⟩; omega), if_neg (by rintro ⟨_, h⟩; omega)]
              rfl

/-- C2: within one turn, (1) an output-stream text delta arriving with budget
remaining is accepted exactly up to the remaining budget, cut at a character
boundary — the accepted prefix has length `min (maxTurnChars - emitted)
(length t)` and is appended verbatim to the dispatched-or-buffered text; (2)
over any sequence of output text deltas totalling more than `maxTurnChars`,
the pipeline delivers exactly one "output truncated" status for the turn and
the emitted character count ends exactly at `maxTurnChars`; (3) once the
truncation notice has been emitted, every further turn text delta is dropped
without any state change or delivery. -/
theorem C2_turn_truncation (p : AcpPipeParams)
    (hs : p.shouldSendToolSummaries = true)
    (hms : 16 ≤ p.settings.maxStatusChars) :
    (∀ (st : AcpPipeState) (t : String), t ≠ "" →
      st.truncationNoticeEmitted = false →
      st.emittedTurnChars < p.settings.maxTurnChars →
      (onEvent p st (.text_delta t (some .output) none)).1.emittedTurnChars
          = st.emittedTurnChars
            + min (p.settings.maxTurnChars - st.emittedTurnChars) (jsLength t)
      ∧ blockConcat (onEvent p st (.text_delta t (some .output) none)).2
            ++ (onEvent p st (.text_delta t (some .output) none)).1.buffer
          = st.buffer
            ++ jsTake t (min (p.settings.maxTurnChars - st.emittedTurnChars) (jsLength t)))
    ∧ (∀ evs : List AcpRuntimeEvent, evs.all isPlainOutputDelta = true →
      p.settings.maxTurnChars < totalTextLen evs →
      (runEvents p initPipeState evs).2.filter (fun d => d.kind == AcpDeliveryKind.tool)
          = [truncDelivery p]
      ∧ (runEvents p initPipeState evs).1.emittedTurnChars = p.settings.maxTurnChars)
    ∧ (∀ (st : AcpPipeState) (t : String),
      st.truncationNoticeEmitted = true →
      st.emittedTurnChars = p.settings.maxTurnChars →
      onEvent p st (.text_delta t (some .output) none) = (st, [])) := by
  refine ⟨?_, ?_, ?_⟩
  · intro st t ht hfl hlt
    have hstep := textDelta_step p hs hms st t (le_of_lt hlt)
      (fun h => by rw [hfl] at h; exact Bool.noConfusion h)
    refine ⟨?_, hstep.2.2.2⟩
    rw [hstep.1]
    omega
  · intro evs hall htot
    have h0a : initPipeState.emittedTurnChars = 0 := rfl
    have h0b : initPipeState.truncationNoticeEmitted = false := rfl
    have hrun := runEvents_textDelta p hs hms evs hall initPipeState
      (by rw [h0a]; omega)
      (fun h => absurd h (by decide))
    refine ⟨?_, ?_⟩
    · rw [hrun.2.2, if_pos ⟨h0b, by rw [h0a]; omega⟩]
    · rw [hrun.1, h0a]
      omega
  · intro st t hfl heq
    unfold onEvent
    dsimp only
    rw [if_neg (by simp)]
    rw [if_neg (by simp [isTagVisible])]
    by_cases ht : t = ""
    · rw [if_pos ht]
    · rw [if_neg ht, if_pos (by omega)]
      unfold emitTruncationNotice
      rw [if_pos (by simp [hfl])]

/-- Witness for C2: with `maxTurnChars = 3`, the deltas "ab" then "cd" total
4 > 3 characters; the run delivers exactly the single "output truncated"
tool-channel status and ends the turn with exactly 3 emitted characters. -/
theorem C2_witness :
    ((3:Nat) < totalTextLen [AcpRuntimeEvent.text_delta "ab" (some .output) none,
        AcpRuntimeEvent.text_delta "cd" (some .output) none])
    ∧ ((runEvents ⟨true, ⟨.live, .minimal, false, 3, 320, 320, 64, []⟩,
          fun s => s, fun s => s⟩ initPipeState
          [.text_delta "ab" (some .output) none,
           .text_delta "cd" (some .output) none]).2.filter
          (fun d => d.kind == AcpDeliveryKind.tool)
        = [truncDelivery ⟨true, ⟨.live, .minimal, false, 3, 320, 320, 64, []⟩,
            fun s => s, fun s => s⟩]
      ∧ (runEvents ⟨true, ⟨.live, .minimal, false, 3, 320, 320, 64, []⟩,
          fun s => s, fun s => s⟩ initPipeState
          [.text_delta "ab" (some .output) none,
           .text_delta "cd" (some .output) none]).1.emittedTurnChars = 3) := by
  refine ⟨by decide, ?_⟩
  exact (C2_turn_truncation ⟨true, ⟨.live, .minimal, false, 3, 320, 320, 64, []⟩,
      fun s => s, fun s => s⟩ rfl (by decide)).2.1
    [.text_delta "ab" (some .output) none, .text_delta "cd" (some .output) none]
    (by decide) (by decide)
